import Mathlib

/-!
# libcloudstorage: the Mega adapter (`src/CloudProvider/MegaNz.cpp`)

A shallow embedding of the request object (`Listener`), of the SDK application
callbacks (`App`), of `error_description`, of the operations of the provider
(`MegaNz`), of the transport shim (`CloudHttp`) and of the file-access shim
(`CloudFileSystemAccess`), followed by the properties established about them.

Conventions of the embedding.

* A method that mutates its object takes the object's state and returns the new
  state together with the list of externally visible effects it performed, in
  program order (`Effect`).
* A method that may wait on the condition variable returns `Wait.blocked` when
  the wait predicate is false in the state it is called in.
* Machine integers are `Nat`/`Int` with explicit wrap-around.
* Constants declared in headers that are not part of the sources (the SDK's
  `error` enumeration, `IHttpRequest::Unknown`, `IHttpRequest::Aborted`,
  `util::Error::ABORTED`) are collected in the parameter record `Consts`; the
  record `Env` adds the further constants and the helper functions of the base
  classes, of the utility headers and of the SDK that the provider uses.
* An operation of the provider is embedded by what its body does with its
  request (`Step`): complete it, or start a sub-request with the SDK calls of
  its initialisation function. What the SDK or the transport answers later is an
  input of the function that embeds the callback receiving it.
* A C++ exception is the result `none`.
-/

namespace cloudstorage

/-! ## Data model -/

/-- Modelled from the spec: the declaration of `Error` is not part of the
sources; the spec gives `Error = { code: int, description: string }`. -/
structure Error where
  code : Int
  description : String
deriving DecidableEq, Repr

/-- Modelled from the spec: the declaration of `EitherError<T>` is not part of
the sources; the spec gives the sum `Ok(T)` or `Err(Error)`. `left` is the error
side and `right` the value side, as the accessors `left()` and `right()` used in
the sources. -/
inductive EitherError (T : Type) where
  | left (e : Error)
  | right (v : T)
deriving DecidableEq, Repr

/-- Constants used by the sources whose declarations lie in headers outside
them: the members of the SDK enumeration `error` that `error_description`
switches on, the two `IHttpRequest` codes and the text `util::Error::ABORTED`. -/
structure Consts where
  Unknown : Int
  Aborted : Int
  ABORTED : String
  API_OK : Int
  API_EINTERNAL : Int
  API_EARGS : Int
  API_EAGAIN : Int
  API_ERATELIMIT : Int
  API_EFAILED : Int
  API_ETOOMANY : Int
  API_ERANGE : Int
  API_EEXPIRED : Int
  API_ENOENT : Int
  API_ECIRCULAR : Int
  API_EACCESS : Int
  API_EEXIST : Int
  API_EINCOMPLETE : Int
  API_EKEY : Int
  API_ESID : Int
  API_EBLOCKED : Int
  API_EOVERQUOTA : Int
  API_ETEMPUNAVAIL : Int
  API_ETOOMANYCONNECTIONS : Int
  API_EWRITE : Int
  API_EREAD : Int
  API_EAPPKEY : Int
  API_ESSL : Int
  API_EGOINGOVERQUOTA : Int

/-- One concrete choice of the constants, used to evaluate the model on
concrete inputs: the SDK numbers its `error` enumeration `API_OK = 0`,
`API_EINTERNAL = -1`, ... downwards in the order of the switch; the two
`IHttpRequest` codes are taken above the HTTP status range. -/
def sdkConsts : Consts where
  Unknown := 700
  Aborted := 600
  ABORTED := "Aborted"
  API_OK := 0
  API_EINTERNAL := -1
  API_EARGS := -2
  API_EAGAIN := -3
  API_ERATELIMIT := -4
  API_EFAILED := -5
  API_ETOOMANY := -6
  API_ERANGE := -7
  API_EEXPIRED := -8
  API_ENOENT := -9
  API_ECIRCULAR := -10
  API_EACCESS := -11
  API_EEXIST := -12
  API_EINCOMPLETE := -13
  API_EKEY := -14
  API_ESID := -15
  API_EBLOCKED := -16
  API_EOVERQUOTA := -17
  API_ETEMPUNAVAIL := -18
  API_ETOOMANYCONNECTIONS := -19
  API_EWRITE := -20
  API_EREAD := -21
  API_EAPPKEY := -22
  API_ESSL := -23
  API_EGOINGOVERQUOTA := -24

/-- The enumeration `Type` of the sources (the kind of a registered request). -/
inductive Type_ where
  | FETCH_NODES
  | MOVE
  | UPLOAD
  | RENAME
  | DELETE
  | READ
  | MKDIR
  | GENERAL_DATA
  | LOGIN
deriving DecidableEq, Repr

/-- The function `error_description(error e)`: the switch is rendered as the
chain of comparisons in the order of its case labels. -/
def error_description (c : Consts) (e : Int) : String :=
  if e ≤ 0 then
    if e = c.API_OK then "No error"
    else if e = c.API_EINTERNAL then "Internal error"
    else if e = c.API_EARGS then "Invalid argument"
    else if e = c.API_EAGAIN then "Request failed, retrying"
    else if e = c.API_ERATELIMIT then "Rate limit exceeded"
    else if e = c.API_EFAILED then "Failed permanently"
    else if e = c.API_ETOOMANY then "Too many concurrent connections or transfers"
    else if e = c.API_ERANGE then "Out of range"
    else if e = c.API_EEXPIRED then "Expired"
    else if e = c.API_ENOENT then "Not found"
    else if e = c.API_ECIRCULAR then "Circular linkage detected"
    else if e = c.API_EACCESS then "Access denied"
    else if e = c.API_EEXIST then "Already exists"
    else if e = c.API_EINCOMPLETE then "Incomplete"
    else if e = c.API_EKEY then "Invalid key/Decryption error"
    else if e = c.API_ESID then "Bad session ID"
    else if e = c.API_EBLOCKED then "Blocked"
    else if e = c.API_EOVERQUOTA then "Over quota"
    else if e = c.API_ETEMPUNAVAIL then "Temporarily not available"
    else if e = c.API_ETOOMANYCONNECTIONS then "Connection overflow"
    else if e = c.API_EWRITE then "Write error"
    else if e = c.API_EREAD then "Read error"
    else if e = c.API_EAPPKEY then "Invalid application key"
    else if e = c.API_ESSL then "SSL verification failed"
    else if e = c.API_EGOINGOVERQUOTA then "Not enough quota"
    else "Unknown error"
  else "HTTP Error"

/-! ## `Listener<Result>` -/

/-- What a method of the adapter does to the outside world. -/
inductive Effect (T : Type) where
  /-- The user callback given at construction is invoked with `e`. -/
  | callback (e : EitherError T)
  /-- The call `download_callback_->receivedData(data, length)`. -/
  | receivedData (data : List Nat) (length : Nat)
  /-- The call `download_callback_->progress(total, now)`. -/
  | progress (total now : Nat)
  /-- The call `condition_.notify_all()`. -/
  | notify_all
deriving DecidableEq, Repr

/-- Outcome of a method that may wait on the condition variable. -/
inductive Wait (α : Type) where
  | blocked
  | returned (a : α)
deriving DecidableEq, Repr

/-- The data members of `Listener<Result>`. The three callback members are
represented by whether they are non-null; `result_` is `none` while it still
holds the default-constructed value. -/
structure Listener (T : Type) where
  status_ : Int
  error_ : Error
  callback_ : Bool
  result_ : Option (EitherError T)
  download_callback_ : Bool
  upload_callback_ : Bool
  received_bytes_ : Nat
  total_bytes_ : Nat
deriving DecidableEq, Repr

namespace Listener

variable {T : Type}

abbrev IN_PROGRESS : Int := -1
abbrev FAILURE : Int := 0
abbrev SUCCESS : Int := 1
abbrev CANCELLED : Int := 2
abbrev PAUSED : Int := 3

/-- The constructor `Listener(Callback cb)`; `cb` tells whether the callback
passed is non-empty. -/
def new (c : Consts) (cb : Bool) : Listener T where
  status_ := IN_PROGRESS
  error_ := ⟨c.Unknown, ""⟩
  callback_ := cb
  result_ := none
  download_callback_ := false
  upload_callback_ := false
  received_bytes_ := 0
  total_bytes_ := 0

/-- The method `finish()`: waits until `status_ != IN_PROGRESS`. -/
def finish (l : Listener T) : Wait Unit :=
  if l.status_ ≠ IN_PROGRESS then .returned () else .blocked

/-- The method `cancel()`. The closing call of `finish()` returns at once, the
status being `CANCELLED` by then. -/
def cancel (c : Consts) (l : Listener T) : Listener T × List (Effect T) :=
  if l.status_ ≠ IN_PROGRESS then (l, [])
  else
    let l1 : Listener T :=
      { l with
        status_ := CANCELLED
        error_ := ⟨c.Aborted, c.ABORTED⟩
        callback_ := false
        download_callback_ := false
        upload_callback_ := false }
    (l1, if l.callback_ then [Effect.callback (.left l1.error_)] else [])

/-- The method `result()`. -/
def result (l : Listener T) : Wait (Option (EitherError T)) :=
  match l.finish with
  | .blocked => .blocked
  | .returned _ =>
    if l.status_ ≠ SUCCESS then .returned (some (.left l.error_))
    else .returned l.result_

/-- The method `pause()`. -/
def pause (l : Listener T) : Listener T :=
  if l.status_ ≠ CANCELLED then { l with status_ := PAUSED } else l

/-- The method `resume()`. -/
def resume (l : Listener T) : Listener T :=
  if l.status_ = PAUSED then { l with status_ := IN_PROGRESS } else l

/-- The method `status()`. -/
def status (l : Listener T) : Int := l.status_

/-- The method `done(EitherError<Result> e)`. -/
def done (l : Listener T) (e : EitherError T) : Listener T × List (Effect T) :=
  let l1 : Listener T :=
    { l with
      status_ := SUCCESS
      result_ := some e
      callback_ := false
      download_callback_ := false
      upload_callback_ := false }
  (l1, (if l.callback_ then [Effect.callback e] else []) ++ [Effect.notify_all])

/-- The method `receivedData(const char* data, uint32_t length)`; the object is
not modified. -/
def receivedData (l : Listener T) (data : List Nat) (length : Nat) :
    Bool × List (Effect T) :=
  (decide (l.status_ = IN_PROGRESS),
   if l.download_callback_ then
     [Effect.receivedData data length, Effect.progress l.total_bytes_ l.received_bytes_]
   else [])

/-- A call made on a `Listener` by one of its holders. -/
inductive Op (T : Type) where
  | cancel
  | done (e : EitherError T)
  | pause
  | resume
  | receivedData (data : List Nat) (length : Nat)
deriving DecidableEq, Repr

/-- Performs one call. -/
def step (c : Consts) (l : Listener T) : Op T → Listener T × List (Effect T)
  | .cancel => l.cancel c
  | .done e => l.done e
  | .pause => (l.pause, [])
  | .resume => (l.resume, [])
  | .receivedData data length => (l, (l.receivedData data length).2)

/-- Performs a sequence of calls one after the other, collecting the effects. -/
def run (c : Consts) (l : Listener T) : List (Op T) → Listener T × List (Effect T)
  | [] => (l, [])
  | op :: ops =>
    let r1 := l.step c op
    let r2 := run c r1.1 ops
    (r2.1, r1.2 ++ r2.2)

/-- The whole life of a `Listener`: construction with the callback `cb`, the
calls `ops`, and the destructor, which calls `cancel()`. -/
def lifetime (c : Consts) (cb : Bool) (ops : List (Op T)) : Listener T × List (Effect T) :=
  run c (new c cb) (ops ++ [Op.cancel])

end Listener

/-- Tells whether an effect is an invocation of the user callback. -/
def Effect.isCallback {T : Type} : Effect T → Bool
  | .callback _ => true
  | _ => false

/-- Number of invocations of the user callback among the effects. -/
def callbackCount {T : Type} (es : List (Effect T)) : Nat :=
  (es.filter Effect.isCallback).length

/-- Conversion of a `uintptr_t` to `int`, the key type of `callback_`. -/
def toInt32 (d : Nat) : Int := ((d : Int) + 2 ^ 31) % 2 ^ 32 - 2 ^ 31

/-- Conversion of an `m_off_t` to `uint32_t`. -/
def toUInt32 (n : Int) : Nat := (n % 2 ^ 32).toNat

/-- The statement `a += b` for a `uint64_t a` and an `m_off_t b`. -/
def addUInt64 (a : Nat) (b : Int) : Nat := (((a : Int) + b) % 2 ^ 64).toNat

/-- The data members of `App` that the callbacks below use. The map `callback_`
is a list of entries `(tag, (type, address))`, where the address stands for the
shared pointer to the request; `heap` gives the `Listener` object at each
address. -/
structure App (T : Type) where
  callback_ : List (Int × (Type_ × Nat))
  exec_pending_ : Bool
  removed_ : Bool
  heap : Nat → Listener T

namespace App

variable {T : Type}

/-- The call `callback_.find(tag)`: the entry of the tag, if there is one. -/
def find (m : List (Int × (Type_ × Nat))) (tag : Int) : Option (Type_ × Nat) :=
  m.lookup tag

/-- The call `callback_.erase(it)` for the entry of `tag`. -/
def erase (m : List (Int × (Type_ × Nat))) (tag : Int) : List (Int × (Type_ × Nat)) :=
  m.filter (fun p => decide (p.1 ≠ tag))

/-- The assignment `callback_[tag] = {type, request}` of `register_callback`. -/
def insert (m : List (Int × (Type_ × Nat))) (tag : Int) (v : Type_ × Nat) :
    List (Int × (Type_ × Nat)) :=
  (tag, v) :: erase m tag

/-- The callback `pread_failure(error e, int retry, void* d, dstime)`; the last
component is the value returned to the SDK. -/
def pread_failure (c : Consts) (app : App Int) (e : Int) (retry : Int) (d : Nat) :
    App Int × List (Effect Int) × Nat :=
  match decide (retry ≥ 4), find app.callback_ (toInt32 d) with
  | true, some (_, a) =>
    let r := (app.heap a).done (.left ⟨e, error_description c e⟩)
    ({ app with
       heap := Function.update app.heap a r.1
       callback_ := erase app.callback_ (toInt32 d) }, r.2, 0)
  | _, _ => (app, [], 0)

/-- The callback `pread_data(uint8_t* data, m_off_t length, ..., void* d)`; the
last component is the value returned to the SDK. -/
def pread_data (c : Consts) (app : App Int) (data : List Nat) (length : Int) (d : Nat) :
    App Int × List (Effect Int) × Bool :=
  match find app.callback_ (toInt32 d) with
  | some (_, a) =>
    let request : Listener Int :=
      { app.heap a with received_bytes_ := addUInt64 (app.heap a).received_bytes_ length }
    let rd := request.receivedData data (toUInt32 length)
    if request.received_bytes_ = request.total_bytes_ then
      let r := request.done (.right c.API_OK)
      ({ app with
         heap := Function.update app.heap a r.1
         callback_ := erase app.callback_ (toInt32 d) }, rd.2 ++ r.2, rd.1)
    else if rd.1 = false then
      ({ app with
         heap := Function.update app.heap a request
         callback_ := erase app.callback_ (toInt32 d) }, rd.2, rd.1)
    else
      ({ app with heap := Function.update app.heap a request }, rd.2, rd.1)
  | none => (app, [], false)

/-- The member template `call(error e, const T& arg)`; `restag` is the value of
`client->restag` at the time of the call. -/
def call (c : Consts) (app : App T) (restag : Int) (e : Int) (arg : T) :
    App T × List (Effect T) :=
  match find app.callback_ restag with
  | some (_, a) =>
    let r :=
      if e = c.API_OK then (app.heap a).done (.right arg)
      else (app.heap a).done (.left ⟨e, error_description c e⟩)
    ({ app with
       heap := Function.update app.heap a r.1
       callback_ := erase app.callback_ restag }, r.2)
  | none => (app, [])

end App

/-- A download in progress, as `downloadResolver` sets it up through
`make_request`: a fresh `Listener` with the download callback installed and
`total` bytes to receive, registered as a `READ` request under `tag`. -/
def downloadApp (c : Consts) (tag : Int) (total : Nat) : App Int where
  callback_ := [(tag, (Type_.READ, 0))]
  exec_pending_ := false
  removed_ := false
  heap := fun _ => { Listener.new c true with download_callback_ := true, total_bytes_ := total }

/-! ## The provider `MegaNz` -/

/-- The members of `IItem::FileType` that `toItem` produces. -/
inductive FileType where
  | Unknown
  | Directory
deriving DecidableEq, Repr

/-- Modelled from the spec: the declaration of `Item` is not part of the
sources; the spec gives an id, a display filename, a file type, an optional size,
an optional timestamp and a URL. `none` stands for `IItem::UnknownSize` and
`IItem::UnknownTimeStamp`. -/
structure Item where
  filename : String
  id : String
  size : Option Nat
  timestamp : Option Int
  type : FileType
  url : String
deriving DecidableEq, Repr

/-- Modelled from the spec: `Range = { start: u64, size: u64 | Full }`; `none`
stands for `Range::Full`. -/
structure Range where
  start_ : Nat
  size_ : Option Nat
deriving DecidableEq, Repr

/-- Modelled from the spec: `PageData` is `{items, next_page_token}`. -/
structure PageData where
  items_ : List Item
  next_token_ : String
deriving DecidableEq, Repr

/-- Modelled from the spec: `Token = { access_token, refresh_token }`, with the
member names used in the sources. -/
structure Token where
  token_ : String
  refresh_token_ : String
deriving DecidableEq, Repr

/-- The values of the SDK enumeration `nodetype_t`; the sources only compare
with `FILENODE`. -/
inductive nodetype_t where
  | FILENODE
  | FOLDERNODE
  | ROOTNODE
  | INCOMINGNODE
  | RUBBISHNODE
deriving DecidableEq, Repr

/-- The members of the SDK class `Node` that `toItem` reads. -/
structure NodeInfo where
  displayname : String
  nodehandle : Nat
  type : nodetype_t
  size : Int
  ctime : Int
deriving DecidableEq, Repr

/-- An SDK `Node` as the sources use it: the members read by `toItem`, and the
nodes its `children` list points to, in the order of that list. -/
structure Node extends NodeInfo where
  children : List NodeInfo
deriving DecidableEq, Repr

/-- The part of `MegaClient` that `MegaNz::node` consults. -/
structure MegaClient where
  rootnodes0 : Nat
  nodebyhandle : Nat → Option Node

/-- The answers of `IAuthCallback::userConsentRequired`. -/
inductive Status where
  | WaitForAuthorizationCode
  | None
deriving DecidableEq, Repr

/-- Everything the provider code uses that is declared outside the sources: the
constants of `Consts`, further `IHttpRequest` codes and `util::Error` texts, and
the helper functions of the base classes, of the utility headers and of the
SDK. -/
structure Env extends Consts where
  NotFound : Int
  Unauthorized : Int
  Failure : Int
  NODE_NOT_FOUND : String
  INVALID_CREDENTIALS : String
  INVALID_AUTHORIZATION_CODE : String
  /-- The id of `rootDirectory()`. -/
  rootId : String
  /-- The function `defaultFileDaemonUrl(item, size)`. -/
  defaultFileDaemonUrl : Item → Int → String
  to_base64 : String → String
  from_base64 : String → String
  /-- The members `username` and `password` of `credentialsFromString(s)`. -/
  credentialsFromString : String → String × String
  /-- The function `credentialsToString` on a JSON object with the members
  `username` and `password`. -/
  credentialsToString : String × String → String
  /-- The SDK function `pw_key`, read back as a C string. -/
  pw_key : String → String
  /-- The function `IHttpRequest::isSuccess`. -/
  isSuccess : Int → Bool
  /-- The function `std::stol`; `none` when it throws. -/
  stol : String → Option Int

/-- One concrete choice of the outside declarations, used to evaluate the model
on concrete inputs. -/
def sdkEnv : Env where
  toConsts := sdkConsts
  NotFound := 404
  Unauthorized := 401
  Failure := 601
  NODE_NOT_FOUND := "node not found"
  INVALID_CREDENTIALS := "invalid credentials"
  INVALID_AUTHORIZATION_CODE := "invalid authorization code"
  rootId := "root"
  defaultFileDaemonUrl := fun item _ => "http://localhost/" ++ item.id
  to_base64 := fun s => s
  from_base64 := fun s => s
  credentialsFromString := fun s => (s, s)
  credentialsToString := fun p => p.1
  pw_key := fun s => s
  isSuccess := fun code => decide (code / 100 = 2)
  stol := fun s => s.toInt?

/-- The function `std::to_string` on an unsigned integer. -/
def to_string (n : Nat) : String := Nat.repr n

/-- The characters `std::isspace` accepts in the C locale. -/
def isspace (ch : Char) : Bool :=
  ch.toNat = 32 || (9 ≤ ch.toNat && ch.toNat ≤ 13)

/-- The function `std::stoull` in base 10: leading white space and an optional
sign are skipped, then the longest run of digits is read. `none` when it throws:
`std::invalid_argument` without any digit, `std::out_of_range` when the value
does not fit 64 bits. A leading minus negates the value modulo `2^64`. -/
def stoull (s : String) : Option Nat :=
  let cs := s.toList.dropWhile isspace
  let neg : Bool := cs.head? = some '-'
  let cs1 := if cs.head? = some '-' ∨ cs.head? = some '+' then cs.tail else cs
  let ds := cs1.takeWhile Char.isDigit
  if ds = [] then none
  else
    let v := ds.foldl (fun acc ch => 10 * acc + (ch.toNat - 48)) 0
    if 2 ^ 64 ≤ v then none
    else some (if neg then (2 ^ 64 - v) % 2 ^ 64 else v)

/-- Conversion of an `m_off_t` to `uint64_t`. -/
def toUInt64 (n : Int) : Nat := (n % 2 ^ 64).toNat

/-- A call into the SDK client made by the provider. -/
inductive SdkCall where
  | fetchnodes
  | getaccountdetails
  | unlink (node : Nat)
  | putnodes (parent : Nat) (name : String)
  | rename (source destination : Nat)
  | setattr (node : Nat) (name : String)
  | startxfer (parent : Nat) (name localname : String)
  | pread (node : Nat) (offset count : Nat) (appdata : Nat)
  | login_session (session : String)
  | login (mail key : String)
  /-- The call `mega_->exec()`. -/
  | exec
deriving DecidableEq, Repr

/-- What the initialisation function given to `make_request` stores in the new
`Listener`. -/
structure Setup where
  download_callback_ : Bool
  upload_callback_ : Bool
  total_bytes_ : Nat
deriving DecidableEq, Repr

/-- What the body of an operation does with its request `r`: it either
completes it with `r->done(e)`, or it starts a sub-request through
`make_subrequest`, which runs `make_request(type, init, ...)`; `setup` and
`calls` are what `init` stores in the `Listener` and the SDK calls it makes. -/
inductive Step (R : Type) where
  | done (e : EitherError R)
  | make_subrequest (type : Type_) (setup : Setup) (calls : List SdkCall)
deriving DecidableEq, Repr

/-- The SDK calls made by a step. -/
def Step.calls {R : Type} : Step R → List SdkCall
  | .done _ => []
  | .make_subrequest _ _ calls => calls

/-- The initialisation functions that leave the `Listener` as constructed. -/
def Setup.none : Setup := ⟨false, false, 0⟩

namespace MegaNz

/-- The method `MegaNz::node(id)`. The outer `none` stands for the exception of
`std::stoull`, the inner one for the null pointer. -/
def node (env : Env) (client : MegaClient) (id : String) : Option (Option Node) :=
  if id = env.rootId then some (client.nodebyhandle client.rootnodes0)
  else (stoull id).map client.nodebyhandle

/-- The method `MegaNz::toItem(node)`. -/
def toItem (env : Env) (node : NodeInfo) : Item :=
  let item : Item :=
    { filename := node.displayname
      id := to_string node.nodehandle
      size := if node.type = nodetype_t.FILENODE then some (toUInt64 node.size) else none
      timestamp := if node.type = nodetype_t.FILENODE then some node.ctime else none
      type := if node.type = nodetype_t.FILENODE then FileType.Unknown else FileType.Directory
      url := "" }
  { item with url := env.defaultFileDaemonUrl item node.size }

/-- The method `MegaNz::ensureAuthorized(r, on_success)`. `reauth` is the value
`r->reauthorize` hands to its callback, consulted only when `authorized_` is
false. -/
def ensureAuthorized {R : Type} (authorized_ : Bool) (reauth : EitherError Unit)
    (on_success : Option (Step R)) : Option (Step R) :=
  if !authorized_ then
    match reauth with
    | .left e => some (.done (.left e))
    | .right _ => on_success
  else on_success

/-- The error `Error{IHttpRequest::NotFound, util::Error::NODE_NOT_FOUND}`. -/
def nodeNotFound (env : Env) : Error := ⟨env.NotFound, env.NODE_NOT_FOUND⟩

/-- The resolver of `getItemDataAsync(id, callback)`. -/
def getItemDataAsync (env : Env) (client : MegaClient) (authorized_ : Bool)
    (reauth : EitherError Unit) (id : String) : Option (Step Item) :=
  ensureAuthorized authorized_ reauth <|
    (node env client id).map fun n =>
      match n with
      | none => .done (.left (nodeNotFound env))
      | some n => .done (.right (toItem env n.toNodeInfo))

/-- The resolver of `uploadFileAsync(item, filename, cb)`; `tag` is the tag
`register_file` hands out for the upload callback. -/
def uploadFileAsync (env : Env) (client : MegaClient) (authorized_ : Bool)
    (reauth : EitherError Unit) (item_id filename : String) (tag : Nat) :
    Option (Step Item) :=
  ensureAuthorized authorized_ reauth <|
    (node env client item_id).map fun n =>
      match n with
      | none => .done (.left (nodeNotFound env))
      | some n =>
        .make_subrequest Type_.UPLOAD ⟨false, true, 0⟩
          [SdkCall.startxfer n.nodehandle filename (to_string tag), SdkCall.exec]

/-- The resolver of `deleteItemAsync(item, callback)`. -/
def deleteItemAsync (env : Env) (client : MegaClient) (authorized_ : Bool)
    (reauth : EitherError Unit) (item_id : String) : Option (Step Unit) :=
  ensureAuthorized authorized_ reauth <|
    (node env client item_id).map fun n =>
      match n with
      | none => .done (.left (nodeNotFound env))
      | some n =>
        .make_subrequest Type_.DELETE Setup.none [SdkCall.unlink n.nodehandle, SdkCall.exec]

/-- The resolver of `createDirectoryAsync(parent, name, callback)`. -/
def createDirectoryAsync (env : Env) (client : MegaClient) (authorized_ : Bool)
    (reauth : EitherError Unit) (parent_id name : String) : Option (Step Item) :=
  ensureAuthorized authorized_ reauth <|
    (node env client parent_id).map fun n =>
      match n with
      | none => .done (.left (nodeNotFound env))
      | some n =>
        .make_subrequest Type_.MKDIR Setup.none [SdkCall.putnodes n.nodehandle name, SdkCall.exec]

/-- The resolver of `moveItemAsync(source, destination, callback)`. -/
def moveItemAsync (env : Env) (client : MegaClient) (authorized_ : Bool)
    (reauth : EitherError Unit) (source_id destination_id : String) : Option (Step Item) :=
  ensureAuthorized authorized_ reauth <|
    (node env client source_id).bind fun source_node =>
      (node env client destination_id).map fun destination_node =>
        match source_node, destination_node with
        | some s, some d =>
          .make_subrequest Type_.MOVE Setup.none
            [SdkCall.rename s.nodehandle d.nodehandle, SdkCall.exec]
        | _, _ => .done (.left (nodeNotFound env))

/-- The resolver of `renameItemAsync(item, name, callback)`. -/
def renameItemAsync (env : Env) (client : MegaClient) (authorized_ : Bool)
    (reauth : EitherError Unit) (item_id name : String) : Option (Step Item) :=
  ensureAuthorized authorized_ reauth <|
    (node env client item_id).map fun n =>
      match n with
      | some n =>
        .make_subrequest Type_.RENAME Setup.none [SdkCall.setattr n.nodehandle name, SdkCall.exec]
      | none => .done (.left (nodeNotFound env))

/-- The resolver of `listDirectoryPageAsync(item, page_token, complete)`; the
sources leave the page token parameter unnamed. -/
def listDirectoryPageAsync (env : Env) (client : MegaClient) (authorized_ : Bool)
    (reauth : EitherError Unit) (item_id : String) (_page_token : String) :
    Option (Step PageData) :=
  ensureAuthorized authorized_ reauth <|
    (node env client item_id).map fun n =>
      match n with
      | none => .done (.left (nodeNotFound env))
      | some n => .done (.right ⟨n.children.map (toItem env), ""⟩)

/-- The value `downloadResolver` stores in `total_bytes_` for a node of size
`size`: `static_cast<uint64_t>(node->size) - range.start_` for a full range, in
64-bit unsigned arithmetic, and `range.size_` otherwise. -/
def totalBytes (size : Int) (range : Range) : Nat :=
  match range.size_ with
  | none => toUInt64 ((toUInt64 size : Int) - (range.start_ : Int))
  | some n => n

/-- The resolver `downloadResolver(item, callback, range)`; `tag` is the request
tag `make_request` obtains from `register_callback`, passed to the SDK as the
`void*` of `pread`. -/
def downloadResolver (env : Env) (client : MegaClient) (authorized_ : Bool)
    (reauth : EitherError Unit) (item_id : String) (range : Range) (tag : Int) :
    Option (Step Unit) :=
  ensureAuthorized authorized_ reauth <|
    (node env client item_id).map fun n =>
      match n with
      | none => .done (.left (nodeNotFound env))
      | some n =>
        .make_subrequest Type_.READ ⟨true, false, totalBytes n.size range⟩
          [SdkCall.pread n.nodehandle range.start_ (totalBytes n.size range) (toUInt64 tag),
           SdkCall.exec]

/-- The completion function `downloadResolver` gives to its sub-request: the
value `r->done` receives when the `Listener` hands `e` to its callback. -/
def downloadCompleted (e : EitherError Int) : EitherError Unit :=
  match e with
  | .left err => .left err
  | .right _ => .right ()

/-- The method `make_request(type, init, c)` together with `register_callback`:
a `Listener` is constructed with the callback `c`, registered under the tag
`tag` that `nextreqtag()` returned, and `init` stores `setup` in it. `a` is the
address of the new object. -/
def make_request {T : Type} (c : Consts) (app : App T) (type : Type_) (tag : Int) (a : Nat)
    (setup : Setup) : App T :=
  { app with
    callback_ := App.insert app.callback_ tag (type, a)
    heap := Function.update app.heap a
      { (Listener.new c true : Listener T) with
        download_callback_ := setup.download_callback_
        upload_callback_ := setup.upload_callback_
        total_bytes_ := setup.total_bytes_ } }

/-- What the SDK answers during one run of `login`: the values the `Listener`s
of the session login and of the password login hand to their callbacks (the
second is consulted only if that login is issued), and the session
`dumpsession` writes. -/
structure LoginReplies where
  session : EitherError Int
  password : EitherError Int
  dumpsession : String
deriving DecidableEq, Repr

/-- What one run of `login` does: the value given to `complete`, the stored
token afterwards, and the SDK calls made, in order. -/
structure LoginResult where
  complete : EitherError Unit
  token : Token
  calls : List SdkCall
deriving DecidableEq, Repr

/-- The test `!e.left() && *e.right() == API_OK` of `session_auth_callback`. -/
def sessionSucceeded (env : Env) (e : EitherError Int) : Bool :=
  match e with
  | .left _ => false
  | .right v => decide (v = env.API_OK)

/-- The method `MegaNz::login(r, complete)` on the stored token `tok`. The mail
and the key come from `credentialsFromString(token())`; `token()` is taken to be
the stored refresh token and `access_token()` the stored `token_`. -/
def login (env : Env) (tok : Token) (replies : LoginReplies) : LoginResult :=
  let mail := (env.credentialsFromString tok.refresh_token_).1
  let key := env.from_base64 (env.credentialsFromString tok.refresh_token_).2
  let session_calls := [SdkCall.login_session (env.from_base64 tok.token_), SdkCall.exec]
  if sessionSucceeded env replies.session then
    ⟨.right (), tok, session_calls⟩
  else
    let calls := session_calls ++ [SdkCall.login mail key, SdkCall.exec]
    match replies.password with
    | .left err => ⟨.left err, tok, calls⟩
    | .right v =>
      if v ≠ 0 then ⟨.left ⟨v, error_description env.toConsts v⟩, tok, calls⟩
      else ⟨.right (), { tok with token_ := env.to_base64 replies.dumpsession }, calls⟩

/-- The method `passwordHash(password)`. -/
def passwordHash (env : Env) (password : String) : String :=
  env.to_base64 (env.pw_key password)

/-- The method `authorizationCodeToToken(code)`. -/
def authorizationCodeToToken (env : Env) (code : String) : Token :=
  let data := env.credentialsFromString code
  let token_ := env.credentialsToString (data.1, passwordHash env data.2)
  ⟨token_, token_⟩

/-- What the outside answers during one run of the flow of `authorizeAsync`:
the SDK during the first login, the consent callback, the authorization code
request, the SDK during the second login, and the value the `Listener` of
`fetchnodes` hands to its callback. Each is consulted only if the flow reaches
it. -/
structure AuthReplies where
  login1 : LoginReplies
  consent : Status
  code : EitherError String
  login2 : LoginReplies
  fetch : EitherError Int
deriving DecidableEq, Repr

/-- What one run of the flow of `authorizeAsync` does: the value given to
`complete`, the member `authorized_` and the stored token afterwards, and the
SDK calls made, in order. -/
structure AuthResult where
  complete : EitherError Unit
  authorized_ : Bool
  token : Token
  calls : List SdkCall
deriving DecidableEq, Repr

/-- The function `fetch` of `authorizeAsync`, after the SDK calls `calls`. -/
def fetch (env : Env) (authorized_ : Bool) (tok : Token) (calls : List SdkCall)
    (reply : EitherError Int) : AuthResult :=
  let calls1 := calls ++ [SdkCall.fetchnodes, SdkCall.exec]
  match reply with
  | .left err => ⟨.left err, authorized_, tok, calls1⟩
  | .right v =>
    if v ≠ 0 then ⟨.left ⟨v, error_description env.toConsts v⟩, authorized_, tok, calls1⟩
    else ⟨.right (), true, tok, calls1⟩

/-- The flow `authorizeAsync` gives to its `AuthorizeRequest`. -/
def authorizeAsync (env : Env) (authorized_ : Bool) (tok : Token) (replies : AuthReplies) :
    AuthResult :=
  let l1 := login env tok replies.login1
  match l1.complete with
  | .right _ => fetch env authorized_ l1.token l1.calls replies.fetch
  | .left _ =>
    if replies.consent = Status.WaitForAuthorizationCode then
      match replies.code with
      | .left err => ⟨.left err, authorized_, l1.token, l1.calls⟩
      | .right code =>
        let l2 := login env (authorizationCodeToToken env code) replies.login2
        match l2.complete with
        | .left err => ⟨.left err, authorized_, l2.token, l1.calls ++ l2.calls⟩
        | .right _ => fetch env authorized_ l2.token (l1.calls ++ l2.calls) replies.fetch
    else
      ⟨.left ⟨env.Unauthorized, env.INVALID_CREDENTIALS⟩, authorized_, l1.token, l1.calls⟩

end MegaNz

/-! ## `App::exec` -/

/-- Entering and leaving the SDK event pump `client->exec()`. -/
inductive PumpEvent where
  | enter
  | leave
deriving DecidableEq, Repr

/-- The method `App::exec()`. `client_exec` is what `client->exec()` does to the
`App` while it runs, with the pump events of calls of `exec()` nested in it. -/
def App.exec {T : Type} (client_exec : App T → App T × List PumpEvent) (app : App T) :
    App T × List PumpEvent :=
  if app.exec_pending_ || app.removed_ then (app, [])
  else
    let r := client_exec { app with exec_pending_ := true }
    ({ r.1 with exec_pending_ := false }, [PumpEvent.enter] ++ r.2 ++ [PumpEvent.leave])

/-- What the SDK event pump does with the `App` during one run: a sequence of
calls of the callbacks above and of calls back into `App::exec()` (as the
transport callbacks `progressDownload`, `progressUpload` and the lambdas of
`post` make them); `inner` is what the pump would do if such a nested call ran
it. -/
inductive Pump where
  | ret
  | exec (inner rest : Pump)
  | pread_data (data : List Nat) (length : Int) (d : Nat) (rest : Pump)
  | pread_failure (e retry : Int) (d : Nat) (rest : Pump)
  | call (restag e arg : Int) (rest : Pump)

/-- Runs the pump: the state of the `App` afterwards and the pump events of the
nested calls of `exec()`. -/
def Pump.run (c : Consts) : Pump → App Int → App Int × List PumpEvent
  | .ret, app => (app, [])
  | .exec inner rest, app =>
    let r1 := App.exec (Pump.run c inner) app
    let r2 := Pump.run c rest r1.1
    (r2.1, r1.2 ++ r2.2)
  | .pread_data data length d rest, app => Pump.run c rest (App.pread_data c app data length d).1
  | .pread_failure e retry d rest, app => Pump.run c rest (App.pread_failure c app e retry d).1
  | .call restag e arg rest, app => Pump.run c rest (App.call c app restag e arg).1

/-- No two `enter` events without a `leave` between them: the pump is never
entered while it runs. `inside` tells whether the pump is running at the start
of the trace. -/
def notReentered : Bool → List PumpEvent → Bool
  | _, [] => true
  | inside, PumpEvent.enter :: t => !inside && notReentered true t
  | _, PumpEvent.leave :: t => notReentered false t

/-! ## `CloudHttp` -/

/-- The values of the SDK enumeration `reqstatus_t`. -/
inductive reqstatus_t where
  | REQ_READY
  | REQ_PREPARED
  | REQ_INFLIGHT
  | REQ_SUCCESS
  | REQ_FAILURE
  | REQ_DONE
deriving DecidableEq, Repr

/-- The members of `IHttpRequest::Response` that `doio` reads. -/
structure Response where
  http_code_ : Int
  headers_ : List (String × String)
deriving DecidableEq, Repr

/-- The members of the SDK structure `HttpReq` that the transport shim reads or
writes. `httpio` tells whether the pointer is non-null; `httpiohandle` is the
address of the `HttpCallback` handle, which is also used as the address of its
shared abort flag. -/
structure HttpReq where
  status : reqstatus_t
  httpstatus : Int
  httpio : Bool
  httpiohandle : Option Nat
  contentlength : Int
  out : String
deriving DecidableEq, Repr

/-- What a method of the transport shim does to the outside. -/
inductive HttpEffect where
  /-- The call `h->put(data, size)`. -/
  | put (h : Nat) (data : String)
  /-- The assignment `h->status = s`. -/
  | status (h : Nat) (s : reqstatus_t)
  /-- The call `request->send(...)` for the request `h` with the abort flag `p`. -/
  | send (h : Nat) (p : Nat) (body : String)
  /-- The call `app_->exec()`. -/
  | exec
  /-- The call `no_requests_.set_value()`. -/
  | set_value
deriving DecidableEq, Repr

/-- The request an effect reads or writes. -/
def HttpEffect.request : HttpEffect → Option Nat
  | .put h _ => some h
  | .status h _ => some h
  | .send h _ _ => some h
  | .exec => none
  | .set_value => none

/-- The request of a `put`. -/
def HttpEffect.putOf : HttpEffect → Option (Nat × String)
  | .put h data => some (h, data)
  | _ => none

/-- The request of a status assignment. -/
def HttpEffect.statusOf : HttpEffect → Option Nat
  | .status h _ => some h
  | _ => none

/-- The data members of `CloudHttp`, with the member `success` of its base
class. A pointer to an `HttpReq` is its address, `none` for the null pointer;
`reqs` gives the object at each address and `abort` the shared abort flag at each
address. -/
structure CloudHttp where
  queue_ : List (Option Nat × EitherError Response)
  read_update_ : List (Option Nat × String)
  http_ : Bool
  pending_requests_ : Nat
  success : Bool
  reqs : Nat → HttpReq
  abort : Nat → Bool

/-- The statement `n++` for a `uint32_t n`. -/
def incUInt32 (n : Nat) : Nat := if n + 1 = 2 ^ 32 then 0 else n + 1

/-- The statement `n--` for a `uint32_t n`. -/
def decUInt32 (n : Nat) : Nat := if n = 0 then 2 ^ 32 - 1 else n - 1

namespace CloudHttp

/-- The method `post(r, data, length)`; `p` is the address of the new abort
flag, `data` is `none` for a null pointer. -/
def post (s : CloudHttp) (r : Nat) (data : Option String) (p : Nat) :
    CloudHttp × List HttpEffect :=
  if !s.http_ then (s, [])
  else
    let body := match data with
      | none => (s.reqs r).out
      | some d => d
    ({ s with
       abort := Function.update s.abort p false
       reqs := Function.update s.reqs r
         { s.reqs r with status := reqstatus_t.REQ_INFLIGHT, httpiohandle := some p }
       pending_requests_ := incUInt32 s.pending_requests_ },
     [HttpEffect.status r reqstatus_t.REQ_INFLIGHT, HttpEffect.send r p body])

/-- The function `post` gives to its `HttpCallback` as `read`: a chunk `d` of
the response to the request `r` posted with the abort flag `p` arrives. -/
def onRead (s : CloudHttp) (p r : Nat) (d : String) : CloudHttp × List HttpEffect :=
  ({ s with
     read_update_ := if !s.abort p then s.read_update_ ++ [(some r, d)] else s.read_update_ },
   [HttpEffect.exec])

/-- The completion function `post` gives to `request->send`: the transport
finished the request `r` posted with the abort flag `p`, with the outcome `e`. -/
def onSent (s : CloudHttp) (p r : Nat) (e : EitherError Response) :
    CloudHttp × List HttpEffect :=
  let n := decUInt32 s.pending_requests_
  if !s.http_ && n == 0 then ({ s with pending_requests_ := n }, [HttpEffect.set_value])
  else if !s.abort p then
    ({ s with pending_requests_ := n, queue_ := s.queue_ ++ [(some r, e)] }, [HttpEffect.exec])
  else ({ s with pending_requests_ := n }, [])

/-- The method `cancel(h)`. -/
def cancel (s : CloudHttp) (h : Nat) : CloudHttp × List HttpEffect :=
  ({ s with
     reqs := Function.update s.reqs h
       { s.reqs h with
         httpstatus := 0
         httpio := false
         status := reqstatus_t.REQ_FAILURE
         httpiohandle := none }
     abort := match (s.reqs h).httpiohandle with
       | some p => Function.update s.abort p true
       | none => s.abort
     read_update_ := s.read_update_.map fun d => if d.1 = some h then (none, d.2) else d
     queue_ := s.queue_.map fun d => if d.1 = some h then (none, d.2) else d },
   [HttpEffect.status h reqstatus_t.REQ_FAILURE])

/-- The first loop of `doio`: the calls of `put` for the chunks, from the front
of `read_update_`. -/
def doioChunks : List (Option Nat × String) → List HttpEffect
  | [] => []
  | (some h, d) :: rest => HttpEffect.put h d :: doioChunks rest
  | (none, _) :: rest => doioChunks rest

/-- The second loop of `doio` on the entries still to process, in the order in
which it takes them. The last component is the value of `result` at the end,
`none` when `std::stol` throws; `queue_` then keeps the entries not taken yet. -/
def doioCompletions (env : Env) (s : CloudHttp) (result : Bool) :
    List (Option Nat × EitherError Response) → CloudHttp × List HttpEffect × Option Bool
  | [] => ({ s with queue_ := [] }, [], some result)
  | (none, _) :: rest => doioCompletions env s result rest
  | (some h, .left err) :: rest =>
    let r := doioCompletions env
      { s with
        reqs := Function.update s.reqs h
          { s.reqs h with
            httpio := false
            httpiohandle := none
            httpstatus := err.code
            status := reqstatus_t.REQ_FAILURE } } true rest
    (r.1, HttpEffect.status h reqstatus_t.REQ_FAILURE :: r.2.1, r.2.2)
  | (some h, .right d) :: rest =>
    let req : HttpReq :=
      { s.reqs h with httpio := false, httpiohandle := none, httpstatus := d.http_code_ }
    match env.isSuccess d.http_code_, d.headers_.lookup "content-length" with
    | true, some v =>
      match env.stol v with
      | none => ({ s with reqs := Function.update s.reqs h req, queue_ := rest.reverse }, [], none)
      | some n =>
        let r := doioCompletions env
          { s with
            reqs := Function.update s.reqs h
              { req with contentlength := n, status := reqstatus_t.REQ_SUCCESS }
            success := true } true rest
        (r.1, HttpEffect.status h reqstatus_t.REQ_SUCCESS :: r.2.1, r.2.2)
    | _, _ =>
      let r := doioCompletions env
        { s with
          reqs := Function.update s.reqs h { req with status := reqstatus_t.REQ_FAILURE } }
        true rest
      (r.1, HttpEffect.status h reqstatus_t.REQ_FAILURE :: r.2.1, r.2.2)

/-- The method `doio()`: the chunks are taken from the front of `read_update_`,
the completions from the back of `queue_`. -/
def doio (env : Env) (s : CloudHttp) : CloudHttp × List HttpEffect × Option Bool :=
  let r := doioCompletions env { s with read_update_ := [] } (decide (s.queue_.length > 0))
    s.queue_.reverse
  (r.1, doioChunks s.read_update_ ++ r.2.1, r.2.2)

/-- Something that happens to the transport shim after a request was posted. -/
inductive Event where
  | read (p r : Nat) (d : String)
  | sent (p r : Nat) (e : EitherError Response)
  | doio
deriving DecidableEq, Repr

/-- The request and the abort flag an arrival belongs to. -/
def Event.arrival : Event → Option (Nat × Nat)
  | .read p r _ => some (p, r)
  | .sent p r _ => some (p, r)
  | .doio => none

/-- Performs one event. -/
def step (env : Env) (s : CloudHttp) : Event → CloudHttp × List HttpEffect
  | .read p r d => s.onRead p r d
  | .sent p r e => s.onSent p r e
  | .doio => ((s.doio env).1, (s.doio env).2.1)

/-- Performs a sequence of events, collecting the effects. -/
def run (env : Env) (s : CloudHttp) : List Event → CloudHttp × List HttpEffect
  | [] => (s, [])
  | ev :: evs =>
    let r1 := s.step env ev
    let r2 := run env r1.1 evs
    (r2.1, r1.2 ++ r2.2)

end CloudHttp

/-- A transport shim with a live transport, empty queues and no request in
flight; every request object is in its initial state. -/
def idleHttp : CloudHttp where
  queue_ := []
  read_update_ := []
  http_ := true
  pending_requests_ := 0
  success := false
  reqs := fun _ => ⟨reqstatus_t.REQ_READY, 0, false, none, 0, ""⟩
  abort := fun _ => false

/-! ## The switch of `error_description` as a table -/

/-- The case labels of the switch of `error_description` with the texts they
return, in the order of the source. -/
def errorTable (c : Consts) : List (Int × String) :=
  [(c.API_OK, "No error"),
   (c.API_EINTERNAL, "Internal error"),
   (c.API_EARGS, "Invalid argument"),
   (c.API_EAGAIN, "Request failed, retrying"),
   (c.API_ERATELIMIT, "Rate limit exceeded"),
   (c.API_EFAILED, "Failed permanently"),
   (c.API_ETOOMANY, "Too many concurrent connections or transfers"),
   (c.API_ERANGE, "Out of range"),
   (c.API_EEXPIRED, "Expired"),
   (c.API_ENOENT, "Not found"),
   (c.API_ECIRCULAR, "Circular linkage detected"),
   (c.API_EACCESS, "Access denied"),
   (c.API_EEXIST, "Already exists"),
   (c.API_EINCOMPLETE, "Incomplete"),
   (c.API_EKEY, "Invalid key/Decryption error"),
   (c.API_ESID, "Bad session ID"),
   (c.API_EBLOCKED, "Blocked"),
   (c.API_EOVERQUOTA, "Over quota"),
   (c.API_ETEMPUNAVAIL, "Temporarily not available"),
   (c.API_ETOOMANYCONNECTIONS, "Connection overflow"),
   (c.API_EWRITE, "Write error"),
   (c.API_EREAD, "Read error"),
   (c.API_EAPPKEY, "Invalid application key"),
   (c.API_ESSL, "SSL verification failed"),
   (c.API_EGOINGOVERQUOTA, "Not enough quota")]

/-- A switch over the labels of a table, with the default text
`"Unknown error"`. -/
def switchText (e : Int) : List (Int × String) → String
  | [] => "Unknown error"
  | (k, v) :: t => if e = k then v else switchText e t

/-! ## The file-access shim -/

namespace CloudFileSystemAccess

/-- The method `CloudFileAccess::fwrite(const uint8_t*, unsigned, m_off_t)`. -/
def CloudFileAccess.fwrite (_data : List Nat) (_length : Nat) (_offset : Int) : Bool := false

/-- The method `renamelocal(string*, string*, bool)`. -/
def renamelocal (_oldname _newname : String) (_replace : Bool) : Bool := false

/-- The method `copylocal(string*, string*, m_time_t)`. -/
def copylocal (_oldname _newname : String) (_mtime : Int) : Bool := false

/-- The method `unlinklocal(string*)`. -/
def unlinklocal (_name : String) : Bool := false

/-- The method `rmdirlocal(string*)`. -/
def rmdirlocal (_name : String) : Bool := false

/-- The method `mkdirlocal(string*, bool)`. -/
def mkdirlocal (_name : String) (_hidden : Bool) : Bool := false

/-- The method `setmtimelocal(string*, m_time_t)`. -/
def setmtimelocal (_name : String) (_mtime : Int) : Bool := false

end CloudFileSystemAccess

/-! ## `MegaNz::Auth` -/

/-- The method `MegaNz::Auth::authorizeLibraryUrl()`; `redirect_uri` and `state`
are the values of the accessors `redirect_uri()` and `state()` of the base
class. -/
def MegaNz.Auth.authorizeLibraryUrl (redirect_uri state : String) : String :=
  redirect_uri ++ "/login?state=" ++ state

/-! ## A download fed chunk by chunk -/

/-- Successive calls of `pread_data` for the request of `d`, one for each chunk
`(data, length)`, with the effects of all of them in order. -/
def App.pread_data_all (c : Consts) (d : Nat) :
    App Int → List (List Nat × Int) → App Int × List (Effect Int)
  | app, [] => (app, [])
  | app, ch :: chunks =>
    let r1 := App.pread_data c app ch.1 ch.2 d
    let r2 := App.pread_data_all c d r1.1 chunks
    (r2.1, r1.2.1 ++ r2.2)

/-- The values `received_bytes_` takes chunk after chunk, starting from
`received`. -/
def runningCounts (received : Nat) : List (List Nat × Int) → List Nat
  | [] => []
  | ch :: chunks => addUInt64 received ch.2 :: runningCounts (addUInt64 received ch.2) chunks

/-! ## Sample inputs -/

/-- A client in which no handle resolves to a node. -/
def emptyClient : MegaClient := ⟨0, fun _ => none⟩

/-- A folder of handle 7, the root of its client, with a file of 3 bytes and a
sub-folder as children. -/
def sampleFolder : Node :=
  { displayname := "docs", nodehandle := 7, type := nodetype_t.FOLDERNODE, size := 0, ctime := 0
    children := [⟨"a.txt", 8, nodetype_t.FILENODE, 3, 5⟩, ⟨"sub", 9, nodetype_t.FOLDERNODE, 0, 0⟩] }

/-- A file of zero bytes, of handle 8. -/
def emptyFile : Node :=
  { displayname := "empty", nodehandle := 8, type := nodetype_t.FILENODE, size := 0, ctime := 0
    children := [] }

/-- A client that knows `sampleFolder` and `emptyFile`. -/
def sampleClient : MegaClient :=
  ⟨7, fun h => if h = 7 then some sampleFolder else if h = 8 then some emptyFile else none⟩

/-- An `App` without registered requests. -/
def emptyApp (c : Consts) : App Int where
  callback_ := []
  exec_pending_ := false
  removed_ := false
  heap := fun _ => Listener.new c false

/-- Two requests are posted and complete, request 1 (posted with the abort flag
1) before request 2 (posted with the abort flag 2), both with a transport
error. -/
def twoCompletions : CloudHttp :=
  ((((idleHttp.post 1 none 1).1.post 2 none 2).1.onSent 1 1 (.left ⟨-1, ""⟩)).1.onSent 2 2
    (.left ⟨-2, ""⟩)).1

/-- Two requests are posted; the chunks `a` for request 1, `b` for request 2
and `c` for request 1 arrive in this order; then request 2 is cancelled. -/
def chunksQueued : CloudHttp :=
  ((((((idleHttp.post 1 none 1).1.post 2 none 2).1.onRead 1 1 "a").1.onRead 2 2 "b").1.onRead 1 1
    "c").1.cancel 2).1

/-- Request 1 is posted with the abort flag 1 and a first chunk of its response
is queued. -/
def oneInFlight : CloudHttp :=
  ((idleHttp.post 1 none 1).1.onRead 1 1 "a").1

/-! ## Properties of `Listener` -/

namespace Listener

variable {T : Type}

/-- C1. Evaluation of the sources on the life `pause()`, destruction: the
destructor's `cancel()` finds the status `PAUSED` and returns early, so the user
callback passed at construction is never invoked (zero times, not once), and the
object dies with the status `PAUSED`. -/
theorem lifetime_pause_callback_never_invoked (c : Consts) :
    callbackCount (lifetime c true ([Op.pause] : List (Op Int))).2 = 0 ∧
      (lifetime c true ([Op.pause] : List (Op Int))).2 = [] ∧
      (lifetime c true ([Op.pause] : List (Op Int))).1.status_ = PAUSED ∧
      (lifetime c true ([Op.pause] : List (Op Int))).1.callback_ = true := by
  simp [lifetime, run, step, pause, cancel, new, callbackCount, IN_PROGRESS, CANCELLED, PAUSED]

/-- C2. Evaluation of the sources on a paused `Listener` that has not completed:
`cancel()` returns at its guard `status_ != IN_PROGRESS`; the status stays
`PAUSED` instead of becoming `CANCELLED` and the user callback is not invoked. -/
theorem cancel_on_paused_does_nothing (c : Consts) (cb : Bool) :
    ((new c cb : Listener Int).pause).status_ = PAUSED ∧
      ((new c cb : Listener Int).pause).cancel c = ((new c cb : Listener Int).pause, []) ∧
      (((new c cb : Listener Int).pause).cancel c).1.status_ ≠ CANCELLED := by
  simp [pause, cancel, new, IN_PROGRESS, CANCELLED, PAUSED]

/-- C3. Evaluation of the sources on `cancel()` followed by `done(Ok v)`: the
cancellation takes effect (status `CANCELLED`, callback invoked with the Aborted
error), yet `done` overwrites the status with `SUCCESS`, and `result()` then
returns `Ok v` instead of the Aborted error. -/
theorem result_after_cancel_then_done (c : Consts) (v : Int) :
    ((new c true : Listener Int).cancel c).1.status_ = CANCELLED ∧
      ((new c true : Listener Int).cancel c).2 =
        [Effect.callback (.left ⟨c.Aborted, c.ABORTED⟩)] ∧
      (run c ((new c true : Listener Int).cancel c).1 [Op.done (.right v)]).1.result =
        Wait.returned (some (.right v)) := by
  simp [run, step, cancel, done, result, finish, new, IN_PROGRESS, CANCELLED, SUCCESS]

/-- C4. `cancel()` on a `Listener` that completed through `done(e)` changes
nothing: the object (status, stored result and all other members) is the same
afterwards, no effect is performed (the user callback is not invoked again), and
`result()` returns `e` before and after the `cancel()`. -/
theorem cancel_after_done_changes_nothing (c : Consts) (l : Listener T) (e : EitherError T) :
    (l.done e).1.cancel c = ((l.done e).1, []) ∧
      ((l.done e).1.cancel c).1.status_ = SUCCESS ∧
      ((l.done e).1.cancel c).1.result_ = some e ∧
      (l.done e).1.result = Wait.returned (some e) ∧
      ((l.done e).1.cancel c).1.result = Wait.returned (some e) := by
  simp [cancel, done, result, finish, IN_PROGRESS, SUCCESS]

/-- C6. Evaluation of the sources on a `Listener` that was paused and never done
or cancelled: the wait of `finish()` is over as soon as the status differs from
`IN_PROGRESS`, so `result()` does not block; it returns the initial error
`Error{Unknown, ""}`. -/
theorem result_on_paused_returns (c : Consts) (cb : Bool) :
    ((new c cb : Listener Int).pause).finish = Wait.returned () ∧
      ((new c cb : Listener Int).pause).result =
        Wait.returned (some (.left ⟨c.Unknown, ""⟩)) ∧
      ((new c cb : Listener Int).pause).result ≠ Wait.blocked := by
  simp [pause, result, finish, new, IN_PROGRESS, CANCELLED, PAUSED, SUCCESS]

end Listener

/-! ## Properties of `App` -/

namespace App

variable {T : Type}

/-- After `erase` the tag is not found any more. -/
theorem find_erase_self (m : List (Int × (Type_ × Nat))) (tag : Int) :
    find (erase m tag) tag = none := by
  induction m with
  | nil => rfl
  | cons p m ih =>
    by_cases hp : p.1 = tag
    · have : erase (p :: m) tag = erase m tag := by simp [erase, List.filter, hp]
      rw [this]; exact ih
    · have he : erase (p :: m) tag = p :: erase m tag := by simp [erase, List.filter, hp]
      have hb : (tag == p.1) = false := by
        simpa using fun h : tag = p.1 => hp h.symm
      rw [he]
      obtain ⟨k, v⟩ := p
      simp only [find, List.lookup] at ih ⊢
      simp only [] at hb
      rw [hb]; exact ih

/-- C7. Evaluation of the sources on a chunk that arrives through `pread_data`
for a registered request whose `Listener` is paused while bytes still remain:
`receivedData` answers `status_ == IN_PROGRESS`, which is false, so `pread_data`
returns false to the SDK (stop reading) and erases the tag; the `Listener` is not
completed, and after `resume()` it is in progress with no registered tag left,
so `finish()` blocks. -/
theorem pread_data_on_paused_stops (c : Consts) (app : App Int) (data : List Nat)
    (length : Int) (d : Nat) (ty : Type_) (a : Nat)
    (hreg : find app.callback_ (toInt32 d) = some (ty, a))
    (hp : (app.heap a).status_ = Listener.PAUSED)
    (hrem : addUInt64 (app.heap a).received_bytes_ length ≠ (app.heap a).total_bytes_) :
    (pread_data c app data length d).2.2 = false ∧
      find (pread_data c app data length d).1.callback_ (toInt32 d) = none ∧
      ((pread_data c app data length d).1.heap a).status_ = Listener.PAUSED ∧
      callbackCount (pread_data c app data length d).2.1 = 0 ∧
      (((pread_data c app data length d).1.heap a).resume).finish = Wait.blocked := by
  have hs : ¬ ((app.heap a).status_ = Listener.IN_PROGRESS) := by
    rw [hp]; decide
  cases hdl : (app.heap a).download_callback_ <;>
    simp [pread_data, hreg, hrem, Listener.receivedData, hs, hp, hdl, find_erase_self,
      callbackCount, Effect.isCallback, Listener.resume, Listener.finish,
      Listener.PAUSED, Listener.IN_PROGRESS]

/-- Instance of C7: a download of 10 bytes registered under tag 1 is paused and
then receives a chunk of 4 bytes. -/
theorem pread_data_on_paused_stops_witness :
    (pread_data sdkConsts
      { downloadApp sdkConsts 1 10 with
        heap := fun a => ((downloadApp sdkConsts 1 10).heap a).pause }
      [1, 2, 3, 4] 4 1).2.2 = false ∧
    find (pread_data sdkConsts
      { downloadApp sdkConsts 1 10 with
        heap := fun a => ((downloadApp sdkConsts 1 10).heap a).pause }
      [1, 2, 3, 4] 4 1).1.callback_ (toInt32 1) = none :=
  have h := pread_data_on_paused_stops sdkConsts
    { downloadApp sdkConsts 1 10 with
      heap := fun a => ((downloadApp sdkConsts 1 10).heap a).pause }
    [1, 2, 3, 4] 4 1 Type_.READ 0 (by decide) (by decide) (by decide)
  ⟨h.1, h.2.1⟩

/-- C8. An SDK result delivered through `App::call` to a registered tag
completes the tag's `Listener`: with the SDK error `API_OK` the stored result and
the value of `result()` are `Ok(arg)`; with any other error `e` they are the
`Error` of code `e` and description `error_description(e)`. In both cases the
status is `SUCCESS`, a callback that was still pending is invoked once with that
same value, and the tag is erased. -/
theorem call_completes_listener (c : Consts) (app : App T) (restag e : Int) (arg : T)
    (ty : Type_) (a : Nat) (hreg : find app.callback_ restag = some (ty, a)) :
    (e = c.API_OK →
      ((call c app restag e arg).1.heap a).result = Wait.returned (some (.right arg)) ∧
      ((call c app restag e arg).1.heap a).result_ = some (.right arg) ∧
      (call c app restag e arg).2 =
        (if (app.heap a).callback_ then [Effect.callback (.right arg)] else []) ++
          [Effect.notify_all]) ∧
    (e ≠ c.API_OK →
      ((call c app restag e arg).1.heap a).result =
        Wait.returned (some (.left ⟨e, error_description c e⟩)) ∧
      ((call c app restag e arg).1.heap a).result_ =
        some (.left ⟨e, error_description c e⟩) ∧
      (call c app restag e arg).2 =
        (if (app.heap a).callback_ then
          [Effect.callback (.left ⟨e, error_description c e⟩)] else []) ++
          [Effect.notify_all]) ∧
    ((call c app restag e arg).1.heap a).status_ = Listener.SUCCESS ∧
    find (call c app restag e arg).1.callback_ restag = none := by
  refine ⟨?_, ?_, ?_, ?_⟩
  · intro he
    simp [call, hreg, he, Listener.done, Listener.result, Listener.finish,
      Listener.SUCCESS, Listener.IN_PROGRESS]
  · intro he
    simp [call, hreg, he, Listener.done, Listener.result, Listener.finish,
      Listener.SUCCESS, Listener.IN_PROGRESS]
  · by_cases he : e = c.API_OK <;> simp [call, hreg, he, Listener.done]
  · simp [call, hreg, find_erase_self]

/-- Instance of C8: the result `API_EACCESS` arrives for the request registered
under tag 1. -/
theorem call_completes_listener_witness :
    find (downloadApp sdkConsts 1 10).callback_ 1 = some (Type_.READ, 0) ∧
      ((call sdkConsts (downloadApp sdkConsts 1 10) 1 (-11) (-11)).1.heap 0).result =
        Wait.returned (some (.left ⟨-11, error_description sdkConsts (-11)⟩)) :=
  ⟨by decide,
    ((call_completes_listener sdkConsts (downloadApp sdkConsts 1 10) 1 (-11) (-11)
      Type_.READ 0 (by decide)).2.1 (by decide)).1⟩

/-- C9. For a registered tag, `pread_failure` with `retry < 4` changes nothing
(the `Listener` keeps its status, in progress if it was, and the tag stays
registered) and returns 0; with `retry >= 4` it completes the `Listener` with
`Error{e, error_description(e)}` (stored result, value of `result()`, and the
argument of a still pending callback) and unregisters the tag. -/
theorem pread_failure_retry_threshold (c : Consts) (app : App Int) (e retry : Int) (d : Nat)
    (ty : Type_) (a : Nat) (hreg : find app.callback_ (toInt32 d) = some (ty, a)) :
    (retry < 4 →
      (pread_failure c app e retry d).1.heap a = app.heap a ∧
      (pread_failure c app e retry d).1.callback_ = app.callback_ ∧
      find (pread_failure c app e retry d).1.callback_ (toInt32 d) = some (ty, a) ∧
      ((app.heap a).status_ = Listener.IN_PROGRESS →
        ((pread_failure c app e retry d).1.heap a).status_ = Listener.IN_PROGRESS) ∧
      (pread_failure c app e retry d).2 = ([], 0)) ∧
    (4 ≤ retry →
      ((pread_failure c app e retry d).1.heap a).status_ = Listener.SUCCESS ∧
      ((pread_failure c app e retry d).1.heap a).result =
        Wait.returned (some (.left ⟨e, error_description c e⟩)) ∧
      (pread_failure c app e retry d).2.1 =
        (if (app.heap a).callback_ then
          [Effect.callback (.left ⟨e, error_description c e⟩)] else []) ++
          [Effect.notify_all] ∧
      find (pread_failure c app e retry d).1.callback_ (toInt32 d) = none) := by
  constructor
  · intro hr
    have hd : decide (retry ≥ 4) = false := by simpa using hr
    simp [pread_failure, hd, hreg]
  · intro hr
    have hd : decide (retry ≥ 4) = true := by simpa using hr
    simp [pread_failure, hd, hreg, find_erase_self, Listener.done, Listener.result,
      Listener.finish, Listener.SUCCESS, Listener.IN_PROGRESS]

/-- Instance of C9: a read error reported for the download registered under
tag 1, once with `retry = 3` and once with `retry = 4`. -/
theorem pread_failure_retry_threshold_witness :
    find (downloadApp sdkConsts 1 10).callback_ (toInt32 1) = some (Type_.READ, 0) ∧
      (pread_failure sdkConsts (downloadApp sdkConsts 1 10) (-21) 3 1).2 = ([], 0) ∧
      ((pread_failure sdkConsts (downloadApp sdkConsts 1 10) (-21) 4 1).1.heap 0).result =
        Wait.returned (some (.left ⟨-21, error_description sdkConsts (-21)⟩)) :=
  ⟨by decide,
    ((pread_failure_retry_threshold sdkConsts (downloadApp sdkConsts 1 10) (-21) 3 1
      Type_.READ 0 (by decide)).1 (by decide)).2.2.2.2,
    ((pread_failure_retry_threshold sdkConsts (downloadApp sdkConsts 1 10) (-21) 4 1
      Type_.READ 0 (by decide)).2 (by decide)).2.1⟩

/-- C10, as stated, fails: the not-found error `API_ENOENT` reported with
`retry = 0` for the download registered under tag 1 does not complete the
request. The `Listener` is still in progress, `result()` blocks, no callback is
invoked, the tag stays registered and 0 is returned to the SDK. -/
theorem pread_failure_first_attempt_not_completed :
    ((pread_failure sdkConsts (downloadApp sdkConsts 1 10) sdkConsts.API_ENOENT 0 1).1.heap
        0).status_ = Listener.IN_PROGRESS ∧
      ((pread_failure sdkConsts (downloadApp sdkConsts 1 10) sdkConsts.API_ENOENT 0 1).1.heap
        0).result = Wait.blocked ∧
      ((pread_failure sdkConsts (downloadApp sdkConsts 1 10) sdkConsts.API_ENOENT 0 1).1.heap
        0).result ≠
          Wait.returned (some (.left ⟨sdkConsts.API_ENOENT,
            error_description sdkConsts sdkConsts.API_ENOENT⟩)) ∧
      (pread_failure sdkConsts (downloadApp sdkConsts 1 10) sdkConsts.API_ENOENT 0 1).2 =
        ([], 0) ∧
      find (pread_failure sdkConsts (downloadApp sdkConsts 1 10) sdkConsts.API_ENOENT 0
        1).1.callback_ (toInt32 1) = some (Type_.READ, 0) := by
  simp [pread_failure, downloadApp, find, toInt32, Listener.new, Listener.result,
    Listener.finish, Listener.IN_PROGRESS]

/-- C10, amended. A read failure reported on the first attempt (`retry = 0`) for
a registered download is not surfaced, whatever its error code: `pread_failure`
does not look at the code, leaves the `Listener` (so also what `result()` does)
and the registration as they are, performs no effect and returns 0 to the SDK. -/
theorem pread_failure_first_attempt_ignores_code (c : Consts) (app : App Int) (e : Int)
    (d : Nat) (ty : Type_) (a : Nat) (hreg : find app.callback_ (toInt32 d) = some (ty, a)) :
    (pread_failure c app e 0 d).1.heap = app.heap ∧
      (pread_failure c app e 0 d).1.callback_ = app.callback_ ∧
      ((pread_failure c app e 0 d).1.heap a).result = (app.heap a).result ∧
      find (pread_failure c app e 0 d).1.callback_ (toInt32 d) = some (ty, a) ∧
      (pread_failure c app e 0 d).2 = ([], 0) := by
  simp [pread_failure, hreg]

/-- Instance of the amended C10: access denied on the first attempt. -/
theorem pread_failure_first_attempt_ignores_code_witness :
    find (downloadApp sdkConsts 1 10).callback_ (toInt32 1) = some (Type_.READ, 0) ∧
      (pread_failure sdkConsts (downloadApp sdkConsts 1 10) sdkConsts.API_EACCESS 0 1).2 =
        ([], 0) :=
  ⟨by decide,
    (pread_failure_first_attempt_ignores_code sdkConsts (downloadApp sdkConsts 1 10)
      sdkConsts.API_EACCESS 1 Type_.READ 0 (by decide)).2.2.2.2⟩

end App

/-! ## Properties of `MegaNz` -/

namespace MegaNz

/-- C11. On an authorized provider, when `node(id)` yields the null pointer,
each of getItemData, uploadFile, deleteItem, createDirectory, renameItem,
listDirectoryPage and downloadFile completes its request with
`Error{NotFound, NODE_NOT_FOUND}` and makes no SDK call; moveItem does so when
the source or the destination yields the null pointer. -/
theorem missing_node_completes_not_found (env : Env) (client : MegaClient)
    (reauth : EitherError Unit) (id : String) (hid : node env client id = some none) :
    getItemDataAsync env client true reauth id = some (.done (.left ⟨env.NotFound, env.NODE_NOT_FOUND⟩)) ∧
    (∀ filename tag, uploadFileAsync env client true reauth id filename tag =
      some (.done (.left ⟨env.NotFound, env.NODE_NOT_FOUND⟩))) ∧
    deleteItemAsync env client true reauth id =
      some (.done (.left ⟨env.NotFound, env.NODE_NOT_FOUND⟩)) ∧
    (∀ name, createDirectoryAsync env client true reauth id name =
      some (.done (.left ⟨env.NotFound, env.NODE_NOT_FOUND⟩))) ∧
    (∀ name, renameItemAsync env client true reauth id name =
      some (.done (.left ⟨env.NotFound, env.NODE_NOT_FOUND⟩))) ∧
    (∀ page_token, listDirectoryPageAsync env client true reauth id page_token =
      some (.done (.left ⟨env.NotFound, env.NODE_NOT_FOUND⟩))) ∧
    (∀ range tag, downloadResolver env client true reauth id range tag =
      some (.done (.left ⟨env.NotFound, env.NODE_NOT_FOUND⟩))) ∧
    (∀ other n, node env client other = some n →
      moveItemAsync env client true reauth id other =
        some (.done (.left ⟨env.NotFound, env.NODE_NOT_FOUND⟩)) ∧
      moveItemAsync env client true reauth other id =
        some (.done (.left ⟨env.NotFound, env.NODE_NOT_FOUND⟩))) ∧
    (∀ filename tag,
      (uploadFileAsync env client true reauth id filename tag).map Step.calls = some []) ∧
    (∀ range tag,
      (downloadResolver env client true reauth id range tag).map Step.calls = some []) ∧
    (deleteItemAsync env client true reauth id).map Step.calls = some [] := by
  refine ⟨?_, ?_, ?_, ?_, ?_, ?_, ?_, ?_, ?_, ?_, ?_⟩ <;>
    first
    | (intro other n hn
       cases n <;>
         simp [moveItemAsync, ensureAuthorized, hid, hn, nodeNotFound])
    | simp [getItemDataAsync, uploadFileAsync, deleteItemAsync, createDirectoryAsync,
        renameItemAsync, listDirectoryPageAsync, downloadResolver, ensureAuthorized, hid,
        nodeNotFound, Step.calls]

/-- Instance of C11: the id `5` in a client without nodes. -/
theorem missing_node_completes_not_found_witness :
    node sdkEnv emptyClient "5" = some none ∧
      getItemDataAsync sdkEnv emptyClient true (.right ()) "5" =
        some (.done (.left ⟨404, "node not found"⟩)) :=
  ⟨by decide,
    (missing_node_completes_not_found sdkEnv emptyClient (.right ()) "5" (by decide)).1⟩

end MegaNz

namespace MegaNz

/-- C12, as stated, fails: the first login fails, the consent callback asks to
wait for the authorization code, the code arrives, and the retried login fails
with the SDK error `API_ENOENT`. The flow completes with the error of that
login, `Error{-9, "Not found"}`, whose code is not `Unauthorized`. -/
theorem authorize_retry_failure_not_unauthorized :
    (authorizeAsync sdkEnv false ⟨"session", "credentials"⟩
      ⟨⟨.left ⟨-15, "Bad session ID"⟩, .left ⟨-9, "Not found"⟩, ""⟩,
        Status.WaitForAuthorizationCode, .right "code",
        ⟨.left ⟨-15, "Bad session ID"⟩, .left ⟨-9, "Not found"⟩, ""⟩,
        .right 0⟩).complete = .left ⟨-9, "Not found"⟩ ∧
    (⟨-9, "Not found"⟩ : Error).code ≠ sdkEnv.Unauthorized := by
  decide

/-- C12, amended. When the first login fails and the consent callback asks to
wait for the authorization code and the code arrives: if the retried login fails
with the error `err`, the flow completes with that same error `err`, and
`authorized_` and the token set from the code keep their values; in particular,
when the SDK refuses the session login of the retry and answers its password
login with the failure code `v`, the flow completes with
`Error{v, error_description(v)}`. When the first login fails and the consent
callback does not ask to wait for the code, the flow completes with
`Error{Unauthorized, INVALID_CREDENTIALS}`. -/
theorem authorize_retry_failure_reports_login_error (env : Env) (authorized_ : Bool)
    (tok : Token) (replies : AuthReplies) (err1 : Error)
    (h1 : (login env tok replies.login1).complete = .left err1) :
    (∀ code err, replies.consent = Status.WaitForAuthorizationCode →
      replies.code = .right code →
      (login env (authorizationCodeToToken env code) replies.login2).complete = .left err →
      (authorizeAsync env authorized_ tok replies).complete = .left err ∧
      (authorizeAsync env authorized_ tok replies).authorized_ = authorized_ ∧
      (authorizeAsync env authorized_ tok replies).token = authorizationCodeToToken env code) ∧
    (∀ code v, replies.consent = Status.WaitForAuthorizationCode →
      replies.code = .right code →
      replies.login2.session ≠ .right env.API_OK →
      replies.login2.password = .right v → v ≠ 0 →
      (authorizeAsync env authorized_ tok replies).complete =
        .left ⟨v, error_description env.toConsts v⟩) ∧
    (replies.consent ≠ Status.WaitForAuthorizationCode →
      (authorizeAsync env authorized_ tok replies).complete =
        .left ⟨env.Unauthorized, env.INVALID_CREDENTIALS⟩) := by
  refine ⟨?_, ?_, ?_⟩
  · intro code err hc hcode h2
    have htok : (login env (authorizationCodeToToken env code) replies.login2).token =
        authorizationCodeToToken env code := by
      revert h2
      simp only [login]
      split
      · intro h2; cases h2
      · split
        · intro _; rfl
        · split
          · intro _; rfl
          · intro h2; cases h2
    simp [authorizeAsync, h1, hc, hcode, h2, htok]
  · intro code v hc hcode hs hp hv
    have hss : sessionSucceeded env replies.login2.session = false := by
      rcases hr : replies.login2.session with er | w
      · rfl
      · have hw : w ≠ env.API_OK := by
          intro hw
          exact hs (by rw [hr, hw])
        simp [sessionSucceeded, hw]
    have h2 : (login env (authorizationCodeToToken env code) replies.login2).complete =
        .left ⟨v, error_description env.toConsts v⟩ := by
      simp [login, hss, hp, hv]
    simp [authorizeAsync, h1, hc, hcode, h2]
  · intro hc
    simp [authorizeAsync, h1, hc]

/-- Instance of the amended C12: the retried login fails with `API_EACCESS`. -/
theorem authorize_retry_failure_reports_login_error_witness :
    (authorizeAsync sdkEnv false ⟨"session", "credentials"⟩
      ⟨⟨.left ⟨-15, "Bad session ID"⟩, .left ⟨-9, "Not found"⟩, ""⟩,
        Status.WaitForAuthorizationCode, .right "code",
        ⟨.left ⟨-15, "Bad session ID"⟩, .left ⟨-11, "Access denied"⟩, ""⟩,
        .right 0⟩).complete = .left ⟨-11, "Access denied"⟩ :=
  ((authorize_retry_failure_reports_login_error sdkEnv false ⟨"session", "credentials"⟩
    ⟨⟨.left ⟨-15, "Bad session ID"⟩, .left ⟨-9, "Not found"⟩, ""⟩,
      Status.WaitForAuthorizationCode, .right "code",
      ⟨.left ⟨-15, "Bad session ID"⟩, .left ⟨-11, "Access denied"⟩, ""⟩,
      .right 0⟩ ⟨-9, "Not found"⟩ (by decide)).1 "code" ⟨-11, "Access denied"⟩
      (by decide) (by decide) (by decide)).1

/-- C13. `login` first makes the session login with the stored access token.
The password login, with the mail and the key of the stored credentials, is made
if and only if the SDK does not answer the session login with `API_OK`. When it
is made and the SDK answers it with the code 0, the stored `token_` becomes the
base64 of the dumped session, the refresh token stays, and `complete` receives
no error. When the session login is answered with `API_OK`, no further call is
made, the stored token is unchanged and `complete` receives no error. When the
password login is made and is answered with anything but the code 0, the stored
token is unchanged and `complete` receives an error. -/
theorem login_session_first (env : Env) (tok : Token) (replies : LoginReplies) :
    (login env tok replies).calls.take 2 =
      [SdkCall.login_session (env.from_base64 tok.token_), SdkCall.exec] ∧
    ((∃ mail key, SdkCall.login mail key ∈ (login env tok replies).calls) ↔
      replies.session ≠ .right env.API_OK) ∧
    (replies.session = .right env.API_OK →
      (login env tok replies).calls =
        [SdkCall.login_session (env.from_base64 tok.token_), SdkCall.exec] ∧
      (login env tok replies).token = tok ∧
      (login env tok replies).complete = .right ()) ∧
    (replies.session ≠ .right env.API_OK →
      (login env tok replies).calls =
        [SdkCall.login_session (env.from_base64 tok.token_), SdkCall.exec,
          SdkCall.login (env.credentialsFromString tok.refresh_token_).1
            (env.from_base64 (env.credentialsFromString tok.refresh_token_).2),
          SdkCall.exec]) ∧
    (replies.session ≠ .right env.API_OK → replies.password = .right 0 →
      (login env tok replies).token =
        ⟨env.to_base64 replies.dumpsession, tok.refresh_token_⟩ ∧
      (login env tok replies).complete = .right ()) ∧
    (replies.session ≠ .right env.API_OK → replies.password ≠ .right 0 →
      (login env tok replies).token = tok ∧
      ∃ err, (login env tok replies).complete = .left err) := by
  by_cases hs : replies.session = .right env.API_OK
  · simp [login, sessionSucceeded, hs]
  · have hss : sessionSucceeded env replies.session = false := by
      rcases hr : replies.session with er | w
      · rfl
      · have hw : w ≠ env.API_OK := by
          intro hw
          exact hs (by rw [hr, hw])
        simp [sessionSucceeded, hw]
    rcases hp : replies.password with err | v
    · simp [login, hss, hs, hp]
    · by_cases hv : v = 0 <;> simp [login, hss, hs, hp, hv]

/-- Instances of C13: a session login the SDK accepts, and a session login it
refuses followed by a password login it accepts. -/
theorem login_session_first_witness :
    (login sdkEnv ⟨"old", "credentials"⟩ ⟨.right 0, .right 0, "dump"⟩).calls =
      [SdkCall.login_session "old", SdkCall.exec] ∧
    (login sdkEnv ⟨"old", "credentials"⟩ ⟨.right 0, .right 0, "dump"⟩).token =
      ⟨"old", "credentials"⟩ ∧
    (login sdkEnv ⟨"old", "credentials"⟩
      ⟨.left ⟨-15, "Bad session ID"⟩, .right 0, "dump"⟩).calls =
      [SdkCall.login_session "old", SdkCall.exec, SdkCall.login "credentials" "credentials",
        SdkCall.exec] ∧
    (login sdkEnv ⟨"old", "credentials"⟩
      ⟨.left ⟨-15, "Bad session ID"⟩, .right 0, "dump"⟩).token = ⟨"dump", "credentials"⟩ :=
  ⟨((login_session_first sdkEnv ⟨"old", "credentials"⟩ ⟨.right 0, .right 0, "dump"⟩).2.2.1
      rfl).1,
    ((login_session_first sdkEnv ⟨"old", "credentials"⟩ ⟨.right 0, .right 0, "dump"⟩).2.2.1
      rfl).2.1,
    (login_session_first sdkEnv ⟨"old", "credentials"⟩
      ⟨.left ⟨-15, "Bad session ID"⟩, .right 0, "dump"⟩).2.2.2.1 (by decide),
    ((login_session_first sdkEnv ⟨"old", "credentials"⟩
      ⟨.left ⟨-15, "Bad session ID"⟩, .right 0, "dump"⟩).2.2.2.2.1 (by decide) rfl).1⟩

end MegaNz

/-- The tag of a request comes back unchanged from its trip through the `void*`
of `pread`. -/
theorem toInt32_toUInt64 (tag : Int) (h1 : -(2 ^ 31) ≤ tag) (h2 : tag < 2 ^ 31) :
    toInt32 (toUInt64 tag) = tag := by
  unfold toInt32 toUInt64
  omega

/-- A tag just registered is found. -/
theorem App.find_insert_self (m : List (Int × (Type_ × Nat))) (tag : Int) (v : Type_ × Nat) :
    App.find (App.insert m tag v) tag = some v := by
  simp [App.find, App.insert, List.lookup]


/-- The branch of `pread_data` taken by the chunk that brings `received_bytes_`
to `total_bytes_`. -/
theorem App.pread_data_of_complete (c : Consts) (app : App Int) (data : List Nat)
    (length : Int) (d : Nat) (ty : Type_) (a : Nat)
    (hreg : App.find app.callback_ (toInt32 d) = some (ty, a))
    (hall : addUInt64 (app.heap a).received_bytes_ length = (app.heap a).total_bytes_) :
    App.pread_data c app data length d =
      ({ app with
         heap := Function.update app.heap a
           (Listener.done
             { app.heap a with received_bytes_ := addUInt64 (app.heap a).received_bytes_ length }
             (.right c.API_OK)).1
         callback_ := App.erase app.callback_ (toInt32 d) },
       (Listener.receivedData
           { app.heap a with received_bytes_ := addUInt64 (app.heap a).received_bytes_ length }
           data (toUInt32 length)).2 ++
         (Listener.done
           { app.heap a with received_bytes_ := addUInt64 (app.heap a).received_bytes_ length }
           (.right c.API_OK)).2,
       (Listener.receivedData
           { app.heap a with received_bytes_ := addUInt64 (app.heap a).received_bytes_ length }
           data (toUInt32 length)).1) := by
  simp only [App.pread_data, hreg, hall, if_true]

/-- The `Listener` that `make_request` constructs. -/
theorem MegaNz.make_request_heap {T : Type} (c : Consts) (app : App T) (type : Type_)
    (tag : Int) (a : Nat) (setup : Setup) :
    (MegaNz.make_request c app type tag a setup).heap a =
      { (Listener.new c true : Listener T) with
        download_callback_ := setup.download_callback_
        upload_callback_ := setup.upload_callback_
        total_bytes_ := setup.total_bytes_ } := by
  simp [MegaNz.make_request]

/-- The tag under which `make_request` registers the `Listener`. -/
theorem MegaNz.make_request_find {T : Type} (c : Consts) (app : App T) (type : Type_)
    (tag : Int) (a : Nat) (setup : Setup) :
    App.find (MegaNz.make_request c app type tag a setup).callback_ tag = some (type, a) := by
  simp [MegaNz.make_request, App.find_insert_self]

namespace MegaNz

/-- C14, as stated, fails: for the zero-byte file `8` and the range
`{start = 0, size = Full}` the resolver starts a `READ` sub-request with
`total_bytes_ = 0` and the call `pread(node, 0, 0, tag)`; the `Listener` it
registers is in progress and `result()` blocks: nothing completes the request
until the SDK calls back. -/
theorem download_of_empty_node_waits :
    downloadResolver sdkEnv sampleClient true (.right ()) "8" ⟨0, none⟩ 1 =
      some (.make_subrequest Type_.READ ⟨true, false, 0⟩
        [SdkCall.pread 8 0 0 1, SdkCall.exec]) ∧
    ((make_request sdkConsts (emptyApp sdkConsts) Type_.READ 1 0 ⟨true, false, 0⟩).heap 0).status_ =
      Listener.IN_PROGRESS ∧
    ((make_request sdkConsts (emptyApp sdkConsts) Type_.READ 1 0 ⟨true, false, 0⟩).heap 0).result =
      Wait.blocked ∧
    ((make_request sdkConsts (emptyApp sdkConsts) Type_.READ 1 0 ⟨true, false, 0⟩).heap 0).callback_ =
      true := by
  refine ⟨by decide, ?_, ?_, ?_⟩ <;>
    simp [make_request, Listener.new, Listener.result, Listener.finish, Listener.IN_PROGRESS]

/-- C14, amended. A download of `Range{start = 0, size = Full}` on a zero-byte
node starts a `READ` sub-request with `total_bytes_ = 0`; the request stays in
progress until the SDK calls `pread_data` for its tag, and the first such call
with a chunk of length 0 completes it: the download callback receives a chunk of
length 0 and `progress(0, 0)`, then the `Listener` hands `Ok(API_OK)` to its
callback, which completes the download request with Ok. -/
theorem download_of_empty_node_completes_on_first_chunk (env : Env) (client : MegaClient)
    (app : App Int) (id : String) (n : Node) (tag : Int) (a : Nat) (data : List Nat)
    (hn : node env client id = some (some n)) (hsize : n.size = 0)
    (h1 : -(2 ^ 31) ≤ tag) (h2 : tag < 2 ^ 31) :
    downloadResolver env client true (.right ()) id ⟨0, none⟩ tag =
      some (.make_subrequest Type_.READ ⟨true, false, 0⟩
        [SdkCall.pread n.nodehandle 0 0 (toUInt64 tag), SdkCall.exec]) ∧
    ((make_request env.toConsts app Type_.READ tag a ⟨true, false, 0⟩).heap a).result =
      Wait.blocked ∧
    (App.pread_data env.toConsts
      (make_request env.toConsts app Type_.READ tag a ⟨true, false, 0⟩) data 0
      (toUInt64 tag)).2.1 =
      [Effect.receivedData data 0, Effect.progress 0 0,
        Effect.callback (.right env.API_OK), Effect.notify_all] ∧
    ((App.pread_data env.toConsts
      (make_request env.toConsts app Type_.READ tag a ⟨true, false, 0⟩) data 0
      (toUInt64 tag)).1.heap a).result = Wait.returned (some (.right env.API_OK)) ∧
    downloadCompleted (.right env.API_OK) = .right () := by
  have ht : totalBytes n.size ⟨0, none⟩ = 0 := by
    simp [totalBytes, hsize, toUInt64]
  have hheap := make_request_heap env.toConsts app Type_.READ tag a ⟨true, false, 0⟩
  have hfind : App.find (make_request env.toConsts app Type_.READ tag a ⟨true, false, 0⟩).callback_
      (toInt32 (toUInt64 tag)) = some (Type_.READ, a) := by
    rw [toInt32_toUInt64 tag h1 h2]
    exact make_request_find env.toConsts app Type_.READ tag a ⟨true, false, 0⟩
  have h0 : addUInt64 0 0 = 0 := by simp [addUInt64]
  have h32 : toUInt32 0 = 0 := by simp [toUInt32]
  have hall : addUInt64
      ((make_request env.toConsts app Type_.READ tag a ⟨true, false, 0⟩).heap a).received_bytes_ 0 =
      ((make_request env.toConsts app Type_.READ tag a ⟨true, false, 0⟩).heap a).total_bytes_ := by
    rw [hheap]; exact h0
  have hp := App.pread_data_of_complete env.toConsts _ data 0 (toUInt64 tag) Type_.READ a hfind hall
  refine ⟨?_, ?_, ?_, ?_, rfl⟩
  · simp [downloadResolver, ensureAuthorized, hn, ht]
  · rw [hheap]
    simp [Listener.new, Listener.result, Listener.finish, Listener.IN_PROGRESS]
  · rw [hp, hheap]
    simp [Listener.new, Listener.receivedData, Listener.done, h0, h32]
  · rw [hp]
    simp [Listener.done, Listener.result, Listener.finish, Listener.IN_PROGRESS,
      Listener.SUCCESS]

/-- Instance of the amended C14: the zero-byte file `8`, registered under
tag 1. -/
theorem download_of_empty_node_completes_on_first_chunk_witness :
    node sdkEnv sampleClient "8" = some (some emptyFile) ∧
      ((App.pread_data sdkConsts
        (make_request sdkConsts (emptyApp sdkConsts) Type_.READ 1 0 ⟨true, false, 0⟩) [] 0
        (toUInt64 1)).1.heap 0).result = Wait.returned (some (.right 0)) :=
  ⟨by decide,
    (download_of_empty_node_completes_on_first_chunk sdkEnv sampleClient (emptyApp sdkConsts)
      "8" emptyFile 1 0 [] (by decide) (by decide) (by decide) (by decide)).2.2.2.1⟩

/-- C15. `listDirectoryPageAsync` does not look at the page token: when the
node of the item exists, for every page token it completes with one item per
child of the node, `toItem` of each child in the order of `children`, and with
the empty `next_page_token`. -/
theorem list_directory_ignores_page_token (env : Env) (client : MegaClient)
    (reauth : EitherError Unit) (id : String) (n : Node)
    (hn : node env client id = some (some n)) (page_token : String) :
    listDirectoryPageAsync env client true reauth id page_token =
      some (.done (.right ⟨n.children.map (toItem env), ""⟩)) ∧
    (n.children.map (toItem env)).length = n.children.length ∧
    (n.children.map (toItem env)).map Item.id =
      n.children.map (fun d => to_string d.nodehandle) ∧
    listDirectoryPageAsync env client true reauth id page_token =
      listDirectoryPageAsync env client true reauth id "" := by
  refine ⟨?_, by simp, ?_, ?_⟩
  · simp [listDirectoryPageAsync, ensureAuthorized, hn]
  · simp [toItem, Function.comp_def]
  · simp [listDirectoryPageAsync]

/-- Instance of C15: the folder `7` with its two children, asked for with the
page token `"2"`. -/
theorem list_directory_ignores_page_token_witness :
    node sdkEnv sampleClient "7" = some (some sampleFolder) ∧
      listDirectoryPageAsync sdkEnv sampleClient true (.right ()) "7" "2" =
        some (.done (.right ⟨sampleFolder.children.map (toItem sdkEnv), ""⟩)) :=
  ⟨by decide,
    (list_directory_ignores_page_token sdkEnv sampleClient (.right ()) "7" sampleFolder
      (by decide) "2").1⟩

end MegaNz

namespace App

/-- For a tag that is not registered `pread_data` does nothing and returns
false. -/
theorem pread_data_unregistered (c : Consts) (app : App Int) (data : List Nat) (length : Int)
    (d : Nat) (h : find app.callback_ (toInt32 d) = none) :
    pread_data c app data length d = (app, [], false) := by
  simp only [pread_data, h]

/-- C16. For the chunk that completes a download (it brings `received_bytes_`
to `total_bytes_`), `pread_data` first hands the chunk and then
`progress(total_bytes_, received_bytes_)` to the download callback, and only
then invokes the completion callback of the request, with `Ok(API_OK)`.
Afterwards the download sink of the `Listener` is null and the tag is erased:
every later `pread_data` for the tag delivers nothing and returns false. -/
theorem pread_data_progress_before_completion (c : Consts) (app : App Int) (data : List Nat)
    (length : Int) (d : Nat) (ty : Type_) (a : Nat)
    (hreg : find app.callback_ (toInt32 d) = some (ty, a))
    (hall : addUInt64 (app.heap a).received_bytes_ length = (app.heap a).total_bytes_) :
    (pread_data c app data length d).2.1 =
      (if (app.heap a).download_callback_ then
        [Effect.receivedData data (toUInt32 length),
          Effect.progress (app.heap a).total_bytes_ (app.heap a).total_bytes_]
       else []) ++
      (if (app.heap a).callback_ then [Effect.callback (.right c.API_OK)] else []) ++
      [Effect.notify_all] ∧
    ((pread_data c app data length d).1.heap a).download_callback_ = false ∧
    (∀ data2 length2,
      (((pread_data c app data length d).1.heap a).receivedData data2 length2).2 = []) ∧
    (∀ data2 length2,
      pread_data c (pread_data c app data length d).1 data2 length2 d =
        ((pread_data c app data length d).1, [], false)) := by
  have hp := pread_data_of_complete c app data length d ty a hreg hall
  refine ⟨?_, ?_, ?_, ?_⟩
  · rw [hp]
    simp [Listener.receivedData, Listener.done, hall]
  · rw [hp]
    simp [Listener.done]
  · intro data2 length2
    rw [hp]
    simp [Listener.receivedData, Listener.done]
  · intro data2 length2
    have hgone : find (pread_data c app data length d).1.callback_ (toInt32 d) = none := by
      rw [hp]
      exact find_erase_self app.callback_ (toInt32 d)
    exact pread_data_unregistered c _ data2 length2 d hgone

/-- Instance of C16: the download of 10 bytes registered under tag 1 receives
its 10 bytes in one chunk. -/
theorem pread_data_progress_before_completion_witness :
    find (downloadApp sdkConsts 1 10).callback_ (toInt32 1) = some (Type_.READ, 0) ∧
      (pread_data sdkConsts (downloadApp sdkConsts 1 10) [0, 1, 2, 3, 4, 5, 6, 7, 8, 9] 10 1).2.1 =
        [Effect.receivedData [0, 1, 2, 3, 4, 5, 6, 7, 8, 9] 10, Effect.progress 10 10,
          Effect.callback (.right 0), Effect.notify_all] :=
  ⟨by decide,
    (pread_data_progress_before_completion sdkConsts (downloadApp sdkConsts 1 10)
      [0, 1, 2, 3, 4, 5, 6, 7, 8, 9] 10 1 Type_.READ 0 (by decide) (by decide)).1⟩

end App

/-! ## Properties of `CloudHttp` -/

namespace CloudHttp

/-- The first loop of `doio` makes exactly the calls of `put` for the entries
whose request pointer is not null, in the order of the queue. -/
theorem doioChunks_eq (q : List (Option Nat × String)) :
    doioChunks q = q.filterMap fun x => x.1.map fun h => HttpEffect.put h x.2 := by
  induction q with
  | nil => rfl
  | cons x q ih =>
    obtain ⟨o, d⟩ := x
    cases o <;> simp [doioChunks, ih]

/-- What the second loop of `doio` leaves alone: the chunk queue and the abort
flags; the entries left in `queue_` are among those it was given; its effects
are status assignments to requests of its entries; a request none of its entries
points to is not modified. -/
theorem doioCompletions_frame (env : Env) (q : List (Option Nat × EitherError Response)) :
    ∀ (s : CloudHttp) (result : Bool),
      (doioCompletions env s result q).1.read_update_ = s.read_update_ ∧
      (doioCompletions env s result q).1.abort = s.abort ∧
      (∀ x ∈ (doioCompletions env s result q).1.queue_, x ∈ q) ∧
      (∀ ef ∈ (doioCompletions env s result q).2.1,
        ∃ h st e, ef = HttpEffect.status h st ∧ (some h, e) ∈ q) ∧
      (∀ h, (∀ e, (some h, e) ∉ q) → (doioCompletions env s result q).1.reqs h = s.reqs h) := by
  induction q with
  | nil =>
    intro s result
    simp [doioCompletions]
  | cons x q ih =>
    intro s result
    obtain ⟨o, e⟩ := x
    cases o with
    | none =>
      have h := ih s result
      simp only [doioCompletions]
      refine ⟨h.1, h.2.1, ?_, ?_, ?_⟩
      · intro x hx
        exact List.mem_cons_of_mem _ (h.2.2.1 x hx)
      · intro ef hef
        obtain ⟨h1, st, e1, he, hm⟩ := h.2.2.2.1 ef hef
        exact ⟨h1, st, e1, he, List.mem_cons_of_mem _ hm⟩
      · intro h1 hh
        exact h.2.2.2.2 h1 (fun e1 hm => hh e1 (List.mem_cons_of_mem _ hm))
    | some h0 =>
      cases e with
      | left err =>
        simp only [doioCompletions]
        have h := ih
          { s with
            reqs := Function.update s.reqs h0
              { s.reqs h0 with
                httpio := false
                httpiohandle := none
                httpstatus := err.code
                status := reqstatus_t.REQ_FAILURE } } true
        refine ⟨h.1, h.2.1, ?_, ?_, ?_⟩
        · intro x hx
          exact List.mem_cons_of_mem _ (h.2.2.1 x hx)
        · intro ef hef
          rcases List.mem_cons.mp hef with hef | hef
          · exact ⟨h0, _, _, hef, List.mem_cons_self _ _⟩
          · obtain ⟨h1, st, e1, he, hm⟩ := h.2.2.2.1 ef hef
            exact ⟨h1, st, e1, he, List.mem_cons_of_mem _ hm⟩
        · intro h1 hh
          rw [h.2.2.2.2 h1 (fun e1 hm => hh e1 (List.mem_cons_of_mem _ hm))]
          have hne : h1 ≠ h0 := by
            intro heq
            exact hh (.left err) (by rw [heq]; exact List.mem_cons_self _ _)
          simp [Function.update, hne]
      | right d =>
        simp only [doioCompletions]
        split
        · split
          · refine ⟨rfl, rfl, ?_, ?_, ?_⟩
            · intro x hx
              exact List.mem_cons_of_mem _ (List.mem_reverse.mp hx)
            · intro ef hef
              simp at hef
            · intro h1 hh
              have hne : h1 ≠ h0 := by
                intro heq
                exact hh (.right d) (by rw [heq]; exact List.mem_cons_self _ _)
              simp [Function.update, hne]
          · rename_i n _
            have h := ih
              { s with
                reqs := Function.update s.reqs h0
                  { ({ s.reqs h0 with
                        httpio := false, httpiohandle := none, httpstatus := d.http_code_ } :
                      HttpReq) with
                    contentlength := n, status := reqstatus_t.REQ_SUCCESS }
                success := true } true
            refine ⟨h.1, h.2.1, ?_, ?_, ?_⟩
            · intro x hx
              exact List.mem_cons_of_mem _ (h.2.2.1 x hx)
            · intro ef hef
              rcases List.mem_cons.mp hef with hef | hef
              · exact ⟨h0, _, _, hef, List.mem_cons_self _ _⟩
              · obtain ⟨h1, st, e1, he, hm⟩ := h.2.2.2.1 ef hef
                exact ⟨h1, st, e1, he, List.mem_cons_of_mem _ hm⟩
            · intro h1 hh
              rw [h.2.2.2.2 h1 (fun e1 hm => hh e1 (List.mem_cons_of_mem _ hm))]
              have hne : h1 ≠ h0 := by
                intro heq
                exact hh (.right d) (by rw [heq]; exact List.mem_cons_self _ _)
              simp [Function.update, hne]
        · have h := ih
            { s with
              reqs := Function.update s.reqs h0
                { ({ s.reqs h0 with
                      httpio := false, httpiohandle := none, httpstatus := d.http_code_ } :
                    HttpReq) with
                  status := reqstatus_t.REQ_FAILURE } } true
          refine ⟨h.1, h.2.1, ?_, ?_, ?_⟩
          · intro x hx
            exact List.mem_cons_of_mem _ (h.2.2.1 x hx)
          · intro ef hef
            rcases List.mem_cons.mp hef with hef | hef
            · exact ⟨h0, _, _, hef, List.mem_cons_self _ _⟩
            · obtain ⟨h1, st, e1, he, hm⟩ := h.2.2.2.1 ef hef
              exact ⟨h1, st, e1, he, List.mem_cons_of_mem _ hm⟩
          · intro h1 hh
            rw [h.2.2.2.2 h1 (fun e1 hm => hh e1 (List.mem_cons_of_mem _ hm))]
            have hne : h1 ≠ h0 := by
              intro heq
              exact hh (.right d) (by rw [heq]; exact List.mem_cons_self _ _)
            simp [Function.update, hne]

end CloudHttp
namespace CloudHttp

/-- When the second loop of `doio` runs to its end, it assigns the statuses in
the order of the entries it was given, skipping the null entries, and leaves
`queue_` empty. -/
theorem doioCompletions_order (env : Env) (q : List (Option Nat × EitherError Response)) :
    ∀ (s : CloudHttp) (result : Bool), (doioCompletions env s result q).2.2 ≠ none →
      (doioCompletions env s result q).2.1.filterMap HttpEffect.statusOf =
        q.filterMap Prod.fst ∧
      (doioCompletions env s result q).1.queue_ = [] := by
  induction q with
  | nil =>
    intro s result _
    simp [doioCompletions]
  | cons x q ih =>
    intro s result
    obtain ⟨o, e⟩ := x
    cases o with
    | none =>
      simp only [doioCompletions]
      intro hret
      simpa using ih s result hret
    | some h0 =>
      cases e with
      | left err =>
        simp only [doioCompletions]
        intro hret
        have h := ih _ _ hret
        simp [HttpEffect.statusOf, h.1, h.2]
      | right d =>
        simp only [doioCompletions]
        split
        · split
          · intro hret
            exact absurd rfl hret
          · intro hret
            have h := ih _ _ hret
            simp [HttpEffect.statusOf, h.1, h.2]
        · intro hret
          have h := ih _ _ hret
          simp [HttpEffect.statusOf, h.1, h.2]

/-- The calls of `put` are not status assignments. -/
theorem doioChunks_statusOf (q : List (Option Nat × String)) :
    (doioChunks q).filterMap HttpEffect.statusOf = [] := by
  induction q with
  | nil => rfl
  | cons x q ih =>
    obtain ⟨o, d⟩ := x
    cases o <;> simp [doioChunks, HttpEffect.statusOf, ih]

/-- The calls of `put` made by the first loop, as pairs of request and data. -/
theorem doioChunks_putOf (q : List (Option Nat × String)) :
    (doioChunks q).filterMap HttpEffect.putOf = q.filterMap fun x => x.1.map fun h => (h, x.2) := by
  induction q with
  | nil => rfl
  | cons x q ih =>
    obtain ⟨o, d⟩ := x
    cases o <;> simp [doioChunks, HttpEffect.putOf, ih]

/-- The second loop of `doio` makes no call of `put`. -/
theorem doioCompletions_putOf (env : Env) (q : List (Option Nat × EitherError Response))
    (s : CloudHttp) (result : Bool) :
    (doioCompletions env s result q).2.1.filterMap HttpEffect.putOf = [] := by
  rw [List.filterMap_eq_nil_iff]
  intro ef hef
  obtain ⟨h, st, e, he, _⟩ := (doioCompletions_frame env q s result).2.2.2.1 ef hef
  rw [he]
  rfl

/-- C17. `doio` calls `put` for the queued response chunks in the order of
`read_update_`, skipping the entries whose request pointer was nulled by a
cancellation, before any completion is processed, and leaves `read_update_`
empty; a chunk that arrives for a request that is not aborted is appended at the
end of the queue, so it is delivered after all the chunks queued before it. -/
theorem doio_delivers_chunks_in_order (env : Env) (s : CloudHttp) :
    (s.doio env).2.1.filterMap HttpEffect.putOf =
      s.read_update_.filterMap (fun x => x.1.map fun h => (h, x.2)) ∧
    (s.doio env).1.read_update_ = [] ∧
    (∃ rest, (s.doio env).2.1 = doioChunks s.read_update_ ++ rest ∧
      rest.filterMap HttpEffect.putOf = []) ∧
    (∀ p r d, s.abort p = false →
      (s.onRead p r d).1.read_update_ = s.read_update_ ++ [(some r, d)] ∧
      ((s.onRead p r d).1.doio env).2.1.filterMap HttpEffect.putOf =
        (s.doio env).2.1.filterMap HttpEffect.putOf ++ [(r, d)]) := by
  have key : ∀ t : CloudHttp, (t.doio env).2.1.filterMap HttpEffect.putOf =
      t.read_update_.filterMap (fun x => x.1.map fun h => (h, x.2)) := by
    intro t
    simp only [doio, List.filterMap_append, doioCompletions_putOf, doioChunks_putOf,
      List.append_nil]
  refine ⟨key s, ?_, ⟨_, rfl, doioCompletions_putOf env _ _ _⟩, ?_⟩
  · simp only [doio]
    rw [(doioCompletions_frame env _ _ _).1]
  · intro p r d hp
    have hq : (s.onRead p r d).1.read_update_ = s.read_update_ ++ [(some r, d)] := by
      simp [onRead, hp]
    refine ⟨hq, ?_⟩
    rw [key, key, hq]
    simp

end CloudHttp
namespace CloudHttp

/-- Instance of C17: with the chunks `a`, `b`, `c` queued and the request of `b`
cancelled, `doio` delivers `a` and then `c` to request 1. -/
theorem doio_delivers_chunks_in_order_witness :
    chunksQueued.read_update_ = [(some 1, "a"), (none, "b"), (some 1, "c")] ∧
      (chunksQueued.doio sdkEnv).2.1.filterMap HttpEffect.putOf = [(1, "a"), (1, "c")] :=
  ⟨by decide,
    ((doio_delivers_chunks_in_order sdkEnv chunksQueued).1).trans (by decide)⟩

/-- C18, as stated, fails: the completion of request 1 is enqueued before the
completion of request 2, and `doio`, which takes the completions from the back
of `queue_`, sets the status of request 2 before the status of request 1. -/
theorem doio_completions_not_first_in_first_out :
    twoCompletions.queue_ = [(some 1, .left ⟨-1, ""⟩), (some 2, .left ⟨-2, ""⟩)] ∧
      (twoCompletions.doio sdkEnv).2.1 =
        [HttpEffect.status 2 reqstatus_t.REQ_FAILURE,
          HttpEffect.status 1 reqstatus_t.REQ_FAILURE] := by
  decide

/-- C18, amended. `doio` processes the queued completion events last in, first
out: when it returns, the statuses were assigned in the reverse of the order of
`queue_`, skipping the entries nulled by a cancellation, and `queue_` is empty;
a completion that arrives for a request that is not aborted is appended at the
end of `queue_`, so for two completions enqueued in the order a then b the
request of b has its status set before the request of a. -/
theorem doio_completions_last_in_first_out (env : Env) (s : CloudHttp)
    (hret : (s.doio env).2.2 ≠ none) :
    (s.doio env).2.1.filterMap HttpEffect.statusOf = (s.queue_.filterMap Prod.fst).reverse ∧
    (s.doio env).1.queue_ = [] ∧
    (∀ a b ea eb, s.queue_ = [(some a, ea), (some b, eb)] →
      (s.doio env).2.1.filterMap HttpEffect.statusOf = [b, a]) ∧
    (∀ p r e, s.abort p = false →
      (s.http_ = true ∨ decUInt32 s.pending_requests_ ≠ 0) →
      (s.onSent p r e).1.queue_ = s.queue_ ++ [(some r, e)]) := by
  have hret1 : (doioCompletions env { s with read_update_ := [] }
      (decide (s.queue_.length > 0)) s.queue_.reverse).2.2 ≠ none := hret
  have h := doioCompletions_order env s.queue_.reverse _ _ hret1
  have h1 : (s.doio env).2.1.filterMap HttpEffect.statusOf =
      (s.queue_.filterMap Prod.fst).reverse := by
    simp only [doio, List.filterMap_append, doioChunks_statusOf, List.nil_append, h.1,
      List.filterMap_reverse]
  refine ⟨h1, h.2, ?_, ?_⟩
  · intro a b ea eb hq
    rw [h1, hq]
    rfl
  · intro p r e hp hlive
    rcases hlive with hlive | hlive
    · simp [onSent, hp, hlive]
    · simp [onSent, hp, hlive]

/-- Instance of the amended C18: the two completions of `twoCompletions`. -/
theorem doio_completions_last_in_first_out_witness :
    (twoCompletions.doio sdkEnv).2.2 ≠ none ∧
      (twoCompletions.doio sdkEnv).2.1.filterMap HttpEffect.statusOf = [2, 1] :=
  ⟨by decide,
    (doio_completions_last_in_first_out sdkEnv twoCompletions (by decide)).2.2.1 1 2
      (.left ⟨-1, ""⟩) (.left ⟨-2, ""⟩) (by decide)⟩

end CloudHttp
namespace CloudHttp

/-- The calls of `put` of the first loop of `doio` go to requests of its
entries. -/
theorem doioChunks_mem (q : List (Option Nat × String)) :
    ∀ ef ∈ doioChunks q, ∃ h d, ef = HttpEffect.put h d ∧ (some h, d) ∈ q := by
  induction q with
  | nil => intro ef hef; simp [doioChunks] at hef
  | cons x q ih =>
    intro ef hef
    obtain ⟨o, d⟩ := x
    cases o with
    | none =>
      obtain ⟨h, d1, he, hm⟩ := ih ef (by simpa [doioChunks] using hef)
      exact ⟨h, d1, he, List.mem_cons_of_mem _ hm⟩
    | some h0 =>
      simp only [doioChunks, List.mem_cons] at hef
      rcases hef with hef | hef
      · exact ⟨h0, d, hef, List.mem_cons_self _ _⟩
      · obtain ⟨h, d1, he, hm⟩ := ih ef hef
        exact ⟨h, d1, he, List.mem_cons_of_mem _ hm⟩

/-- What the completion function of `post` changes: only `pending_requests_`
and, for a posting that is not aborted, `queue_`, at its end; it reads and
writes no request. -/
theorem onSent_frame (s : CloudHttp) (p r : Nat) (e : EitherError Response) :
    (s.onSent p r e).1.abort = s.abort ∧
      (s.onSent p r e).1.read_update_ = s.read_update_ ∧
      (s.onSent p r e).1.reqs = s.reqs ∧
      ((s.onSent p r e).1.queue_ = s.queue_ ∨
        (s.abort p = false ∧ (s.onSent p r e).1.queue_ = s.queue_ ++ [(some r, e)])) ∧
      (∀ ef ∈ (s.onSent p r e).2, ef.request = none) := by
  simp only [onSent]
  split_ifs with h1 h2
  · simp [HttpEffect.request]
  · have hp : s.abort p = false := by simpa using h2
    simp [HttpEffect.request, hp]
  · simp [HttpEffect.request]

/-- What the chunk function of `post` changes: for a posting that is not
aborted, `read_update_`, at its end; it reads and writes no request. -/
theorem onRead_frame (s : CloudHttp) (p r : Nat) (d : String) :
    (s.onRead p r d).1.abort = s.abort ∧
      (s.onRead p r d).1.queue_ = s.queue_ ∧
      (s.onRead p r d).1.reqs = s.reqs ∧
      ((s.onRead p r d).1.read_update_ = s.read_update_ ∨
        (s.abort p = false ∧ (s.onRead p r d).1.read_update_ = s.read_update_ ++ [(some r, d)])) ∧
      (∀ ef ∈ (s.onRead p r d).2, ef.request = none) := by
  cases hp : s.abort p <;> simp [onRead, hp, HttpEffect.request]

/-- One event on a shim in which the abort flag `p` is set and no queue entry
points to the request `h`: as long as the arrivals for `h` are those of the
posting with the abort flag `p`, this stays so, `h` is not modified and no
effect reads or writes `h`. -/
theorem step_leaves_aborted_request (env : Env) (s : CloudHttp) (ev : Event) (h p : Nat)
    (hev : ∀ p1, ev.arrival = some (p1, h) → p1 = p)
    (hab : s.abort p = true)
    (hru : ∀ x ∈ s.read_update_, x.1 ≠ some h)
    (hq : ∀ x ∈ s.queue_, x.1 ≠ some h) :
    (s.step env ev).1.abort p = true ∧
      (∀ x ∈ (s.step env ev).1.read_update_, x.1 ≠ some h) ∧
      (∀ x ∈ (s.step env ev).1.queue_, x.1 ≠ some h) ∧
      (s.step env ev).1.reqs h = s.reqs h ∧
      (∀ ef ∈ (s.step env ev).2, ef.request ≠ some h) := by
  cases ev with
  | read p1 r d =>
    have hpush : s.abort p1 = false → r ≠ h := by
      intro hp1 hr
      have := hev p1 (by simp [Event.arrival, hr])
      rw [this, hab] at hp1
      exact Bool.noConfusion hp1
    have hf := onRead_frame s p1 r d
    simp only [step]
    refine ⟨?_, ?_, ?_, ?_, ?_⟩
    · rw [hf.1]
      exact hab
    · intro x hx
      rcases hf.2.2.2.1 with heq | ⟨hp1, heq⟩
      · rw [heq] at hx
        exact hru x hx
      · rw [heq] at hx
        rcases List.mem_append.mp hx with hx | hx
        · exact hru x hx
        · rw [List.mem_singleton.mp hx]
          intro hc
          exact hpush hp1 (Option.some.inj hc)
    · rw [hf.2.1]
      exact hq
    · rw [hf.2.2.1]
    · intro ef hef
      rw [hf.2.2.2.2 ef hef]
      intro hc
      cases hc
  | sent p1 r e =>
    have hpush : s.abort p1 = false → r ≠ h := by
      intro hp1 hr
      have := hev p1 (by simp [Event.arrival, hr])
      rw [this, hab] at hp1
      exact Bool.noConfusion hp1
    have hf := onSent_frame s p1 r e
    simp only [step]
    refine ⟨?_, ?_, ?_, ?_, ?_⟩
    · rw [hf.1]
      exact hab
    · rw [hf.2.1]
      exact hru
    · intro x hx
      rcases hf.2.2.2.1 with heq | ⟨hp1, heq⟩
      · rw [heq] at hx
        exact hq x hx
      · rw [heq] at hx
        rcases List.mem_append.mp hx with hx | hx
        · exact hq x hx
        · rw [List.mem_singleton.mp hx]
          intro hc
          exact hpush hp1 (Option.some.inj hc)
    · rw [hf.2.2.1]
    · intro ef hef
      rw [hf.2.2.2.2 ef hef]
      intro hc
      cases hc
  | doio =>
    have hqr : ∀ e, (some h, e) ∉ s.queue_.reverse := by
      intro e hm
      exact hq _ (List.mem_reverse.mp hm) rfl
    have hf := doioCompletions_frame env s.queue_.reverse { s with read_update_ := [] }
      (decide (s.queue_.length > 0))
    simp only [step, doio]
    refine ⟨?_, ?_, ?_, ?_, ?_⟩
    · rw [hf.2.1]
      exact hab
    · rw [hf.1]
      intro x hx
      simp at hx
    · intro x hx
      exact hq x (List.mem_reverse.mp (hf.2.2.1 x hx))
    · exact hf.2.2.2.2 h hqr
    · intro ef hef
      rcases List.mem_append.mp hef with hef | hef
      · obtain ⟨h1, d, he, hm⟩ := doioChunks_mem s.read_update_ ef hef
        rw [he]
        intro hc
        have hh : h1 = h := Option.some.inj hc
        exact hru _ hm (by rw [hh])
      · obtain ⟨h1, st, e, he, hm⟩ := hf.2.2.2.1 ef hef
        rw [he]
        intro hc
        have hh : h1 = h := Option.some.inj hc
        exact hqr e (by rw [← hh]; exact hm)

/-- The same for a sequence of events. -/
theorem run_leaves_aborted_request (env : Env) (h p : Nat) (evs : List Event) :
    ∀ s : CloudHttp, (∀ ev ∈ evs, ∀ p1, ev.arrival = some (p1, h) → p1 = p) →
      s.abort p = true →
      (∀ x ∈ s.read_update_, x.1 ≠ some h) →
      (∀ x ∈ s.queue_, x.1 ≠ some h) →
      (s.run env evs).1.reqs h = s.reqs h ∧
        (∀ x ∈ (s.run env evs).1.read_update_, x.1 ≠ some h) ∧
        (∀ x ∈ (s.run env evs).1.queue_, x.1 ≠ some h) ∧
        (∀ ef ∈ (s.run env evs).2, ef.request ≠ some h) := by
  induction evs with
  | nil =>
    intro s _ _ hru hq
    exact ⟨rfl, hru, hq, by simp [run]⟩
  | cons ev evs ih =>
    intro s hevs hab hru hq
    have h1 := step_leaves_aborted_request env s ev h p (hevs ev (List.mem_cons_self _ _))
      hab hru hq
    have h2 := ih (s.step env ev).1 (fun e he => hevs e (List.mem_cons_of_mem _ he))
      h1.1 h1.2.1 h1.2.2.1
    simp only [run]
    refine ⟨by rw [h2.1, h1.2.2.2.1], h2.2.1, h2.2.2.1, ?_⟩
    intro ef hef
    rcases List.mem_append.mp hef with hm | hm
    · exact h1.2.2.2.2 ef hm
    · exact h2.2.2.2 ef hm

/-- C19. After `cancel(h)` on a request whose handle is live, with the shared
abort flag `p`: the flag is true; no entry of the chunk queue or of the
completion queue points to `h`; a chunk or a completion that arrives later for
that posting is not enqueued; and through any later sequence of arrivals and
calls of `doio`, in which the arrivals for `h` are those of that posting, no
effect of `doio` reads or writes `h`, the object `h` stays as `cancel` left it,
and no queue entry points to `h`. -/
theorem cancel_drops_later_deliveries (env : Env) (s : CloudHttp) (h p : Nat)
    (hlive : (s.reqs h).httpiohandle = some p) :
    (s.cancel h).1.abort p = true ∧
    (∀ x ∈ (s.cancel h).1.read_update_, x.1 ≠ some h) ∧
    (∀ x ∈ (s.cancel h).1.queue_, x.1 ≠ some h) ∧
    (∀ d, ((s.cancel h).1.onRead p h d).1.read_update_ = (s.cancel h).1.read_update_) ∧
    (∀ e, ((s.cancel h).1.onSent p h e).1.queue_ = (s.cancel h).1.queue_) ∧
    (∀ evs : List Event, (∀ ev ∈ evs, ∀ p1, ev.arrival = some (p1, h) → p1 = p) →
      ((s.cancel h).1.run env evs).1.reqs h = (s.cancel h).1.reqs h ∧
      (∀ x ∈ ((s.cancel h).1.run env evs).1.read_update_, x.1 ≠ some h) ∧
      (∀ x ∈ ((s.cancel h).1.run env evs).1.queue_, x.1 ≠ some h) ∧
      (∀ ef ∈ ((s.cancel h).1.run env evs).2, ef.request ≠ some h)) := by
  have hab : (s.cancel h).1.abort p = true := by
    simp [cancel, hlive]
  have hru : ∀ x ∈ (s.cancel h).1.read_update_, x.1 ≠ some h := by
    intro x hx
    simp only [cancel, List.mem_map] at hx
    obtain ⟨y, _, hy⟩ := hx
    by_cases hc : y.1 = some h
    · rw [if_pos hc] at hy
      rw [← hy]
      simp
    · rw [if_neg hc] at hy
      rw [← hy]
      exact hc
  have hq : ∀ x ∈ (s.cancel h).1.queue_, x.1 ≠ some h := by
    intro x hx
    simp only [cancel, List.mem_map] at hx
    obtain ⟨y, _, hy⟩ := hx
    by_cases hc : y.1 = some h
    · rw [if_pos hc] at hy
      rw [← hy]
      simp
    · rw [if_neg hc] at hy
      rw [← hy]
      exact hc
  refine ⟨hab, hru, hq, ?_, ?_, ?_⟩
  · intro d
    rcases (onRead_frame (s.cancel h).1 p h d).2.2.2.1 with heq | ⟨hp, _⟩
    · exact heq
    · rw [hab] at hp
      exact Bool.noConfusion hp
  · intro e
    rcases (onSent_frame (s.cancel h).1 p h e).2.2.2.1 with heq | ⟨hp, _⟩
    · exact heq
    · rw [hab] at hp
      exact Bool.noConfusion hp
  · intro evs hevs
    exact run_leaves_aborted_request env h p evs (s.cancel h).1 hevs hab hru hq

/-- Instance of C19: request 1 is cancelled while a chunk of its response is
queued; a further chunk and the completion arrive afterwards, then `doio` runs. -/
theorem cancel_drops_later_deliveries_witness :
    (oneInFlight.reqs 1).httpiohandle = some 1 ∧
      (∀ ef ∈ ((oneInFlight.cancel 1).1.run sdkEnv
        [Event.read 1 1 "b", Event.sent 1 1 (.right ⟨200, []⟩), Event.doio]).2,
        ef.request ≠ some 1) :=
  ⟨by decide,
    ((cancel_drops_later_deliveries sdkEnv oneInFlight 1 1 (by decide)).2.2.2.2.2
      [Event.read 1 1 "b", Event.sent 1 1 (.right ⟨200, []⟩), Event.doio]
      (by
        intro ev hev p1 harr
        simp only [List.mem_cons, List.mem_singleton, List.not_mem_nil, or_false] at hev
        rcases hev with rfl | rfl | rfl
        · exact (Prod.mk.inj (Option.some.inj harr)).1.symm
        · exact (Prod.mk.inj (Option.some.inj harr)).1.symm
        · cases harr)).2.2.2⟩

end CloudHttp

/-! ## Properties of `App::exec` -/

namespace App

/-- The callback `pread_data` does not touch `exec_pending_`. -/
theorem pread_data_exec_pending (c : Consts) (app : App Int) (data : List Nat) (length : Int)
    (d : Nat) : (pread_data c app data length d).1.exec_pending_ = app.exec_pending_ := by
  simp only [pread_data]
  split
  · split_ifs <;> simp
  · simp

/-- The callback `pread_failure` does not touch `exec_pending_`. -/
theorem pread_failure_exec_pending (c : Consts) (app : App Int) (e retry : Int) (d : Nat) :
    (pread_failure c app e retry d).1.exec_pending_ = app.exec_pending_ := by
  simp only [pread_failure]
  split <;> simp

/-- The member template `call` does not touch `exec_pending_`. -/
theorem call_exec_pending (c : Consts) (app : App Int) (restag e arg : Int) :
    (call c app restag e arg).1.exec_pending_ = app.exec_pending_ := by
  simp only [call]
  split <;> simp

/-- While `exec_pending_` is set, nothing the pump does enters the pump again,
and `exec_pending_` stays set. -/
theorem pump_while_pending (c : Consts) (pump : Pump) :
    ∀ app : App Int, app.exec_pending_ = true →
      (pump.run c app).2 = [] ∧ (pump.run c app).1.exec_pending_ = true := by
  induction pump with
  | ret =>
    intro app h
    exact ⟨rfl, h⟩
  | exec inner rest _ ih2 =>
    intro app h
    have he : App.exec (Pump.run c inner) app = (app, []) := by
      simp [App.exec, h]
    simp only [Pump.run, he]
    have h2 := ih2 app h
    exact ⟨by rw [h2.1]; rfl, h2.2⟩
  | pread_data data length d rest ih =>
    intro app h
    simp only [Pump.run]
    exact ih _ (by rw [pread_data_exec_pending]; exact h)
  | pread_failure e retry d rest ih =>
    intro app h
    simp only [Pump.run]
    exact ih _ (by rw [pread_failure_exec_pending]; exact h)
  | call restag e arg rest ih =>
    intro app h
    simp only [Pump.run]
    exact ih _ (by rw [call_exec_pending]; exact h)

/-- C20. A call of `exec()` made while `exec_pending_` or `removed_` is set
returns without calling `client->exec()` and changes nothing; a call made with
both flags clear runs the pump once, between setting and clearing
`exec_pending_`, so `exec_pending_` is false afterwards; and whatever callbacks
and nested calls of `exec()` the pump makes while it runs, none of them enters
the pump: the pump events of a call of `exec()` are none or one `enter` followed
by one `leave`. -/
theorem exec_never_reenters (c : Consts) (app : App Int) :
    (∀ client_exec, app.exec_pending_ = true ∨ app.removed_ = true →
      App.exec client_exec app = (app, [])) ∧
    (∀ client_exec, app.exec_pending_ = false → app.removed_ = false →
      (App.exec client_exec app).1.exec_pending_ = false ∧
      (App.exec client_exec app).2 =
        [PumpEvent.enter] ++ (client_exec { app with exec_pending_ := true }).2 ++
          [PumpEvent.leave]) ∧
    (∀ pump : Pump,
      (App.exec (Pump.run c pump) app).2 = [] ∨
      (App.exec (Pump.run c pump) app).2 = [PumpEvent.enter, PumpEvent.leave]) ∧
    (∀ pump : Pump, notReentered false (App.exec (Pump.run c pump) app).2 = true) := by
  have h3 : ∀ pump : Pump,
      (App.exec (Pump.run c pump) app).2 = [] ∨
      (App.exec (Pump.run c pump) app).2 = [PumpEvent.enter, PumpEvent.leave] := by
    intro pump
    by_cases hc : app.exec_pending_ = true ∨ app.removed_ = true
    · left
      rcases hc with hc | hc <;> simp [App.exec, hc]
    · right
      have h1 : app.exec_pending_ = false := by
        cases h : app.exec_pending_
        · rfl
        · exact absurd (Or.inl h) hc
      have h2 : app.removed_ = false := by
        cases h : app.removed_
        · rfl
        · exact absurd (Or.inr h) hc
      have hp := (pump_while_pending c pump { app with exec_pending_ := true } rfl).1
      rw [h2] at hp
      simp [App.exec, h1, h2, hp]
  refine ⟨?_, ?_, h3, ?_⟩
  · intro client_exec hc
    rcases hc with hc | hc <;> simp [App.exec, hc]
  · intro client_exec h1 h2
    simp [App.exec, h1, h2]
  · intro pump
    rcases h3 pump with h | h <;> rw [h] <;> rfl

/-- Instance of C20: during the pump a callback calls `exec()` again, whose pump
would call `exec()` once more, and a chunk arrives. -/
theorem exec_never_reenters_witness :
    (downloadApp sdkConsts 1 10).exec_pending_ = false ∧
      (downloadApp sdkConsts 1 10).removed_ = false ∧
      (App.exec (Pump.run sdkConsts
        (Pump.exec (Pump.exec Pump.ret Pump.ret) (Pump.pread_data [1, 2] 2 1 Pump.ret)))
        (downloadApp sdkConsts 1 10)).1.exec_pending_ = false :=
  ⟨rfl, rfl,
    ((exec_never_reenters sdkConsts (downloadApp sdkConsts 1 10)).2.1
      (Pump.run sdkConsts
        (Pump.exec (Pump.exec Pump.ret Pump.ret) (Pump.pread_data [1, 2] 2 1 Pump.ret)))
      rfl rfl).1⟩

end App

/-! ## Properties of the file-access shim and of `MegaNz::Auth` -/

/-- C21. The file-access shim rejects every write: `CloudFileAccess::fwrite`
returns false for all arguments, and so do `renamelocal`, `copylocal`,
`unlinklocal`, `rmdirlocal`, `mkdirlocal` and `setmtimelocal` of
`CloudFileSystemAccess`. -/
theorem CloudFileSystemAccess.writes_rejected :
    (∀ data length offset, CloudFileSystemAccess.CloudFileAccess.fwrite data length offset = false) ∧
    (∀ oldname newname replace,
      CloudFileSystemAccess.renamelocal oldname newname replace = false) ∧
    (∀ oldname newname mtime, CloudFileSystemAccess.copylocal oldname newname mtime = false) ∧
    (∀ name, CloudFileSystemAccess.unlinklocal name = false) ∧
    (∀ name, CloudFileSystemAccess.rmdirlocal name = false) ∧
    (∀ name hidden, CloudFileSystemAccess.mkdirlocal name hidden = false) ∧
    (∀ name mtime, CloudFileSystemAccess.setmtimelocal name mtime = false) :=
  ⟨fun _ _ _ => rfl, fun _ _ _ => rfl, fun _ _ _ => rfl, fun _ => rfl, fun _ => rfl,
    fun _ _ => rfl, fun _ _ => rfl⟩

/-- C22. For every `redirect_uri` and `state`, `authorizeLibraryUrl` returns
`redirect_uri` followed by `"/login?state="` followed by `state`: the URL starts
with `redirect_uri` and ends with `state`. -/
theorem MegaNz.Auth.authorizeLibraryUrl_shape (redirect_uri state : String) :
    MegaNz.Auth.authorizeLibraryUrl redirect_uri state =
      redirect_uri ++ "/login?state=" ++ state ∧
    (MegaNz.Auth.authorizeLibraryUrl redirect_uri state).data =
      redirect_uri.data ++ "/login?state=".data ++ state.data ∧
    redirect_uri.data <+: (MegaNz.Auth.authorizeLibraryUrl redirect_uri state).data ∧
    state.data <:+ (MegaNz.Auth.authorizeLibraryUrl redirect_uri state).data := by
  have h : (MegaNz.Auth.authorizeLibraryUrl redirect_uri state).data =
      redirect_uri.data ++ "/login?state=".data ++ state.data := by
    simp [MegaNz.Auth.authorizeLibraryUrl]
  refine ⟨rfl, h, ?_, ?_⟩
  · rw [h, List.append_assoc]
    exact List.prefix_append _ _
  · rw [h]
    exact List.suffix_append _ _

/-! ## Further properties of `Listener` -/

namespace Listener

variable {T : Type}

/-- C23. Evaluation of the sources on `cancel()`: whatever the state of the
`Listener`, `cancel()` makes no call of `condition_.notify_all()` (it ends with
a call of `finish()` instead), whereas `done()` always makes one. On an
in-progress `Listener`, on which `finish()` blocks, `cancel()` sets the status
`CANCELLED` and invokes the callback, and that is all it does. -/
theorem cancel_never_notifies (c : Consts) (l : Listener T) :
    Effect.notify_all ∉ (l.cancel c).2 ∧
    (∀ e, Effect.notify_all ∈ (l.done e).2) ∧
    (l.status_ = IN_PROGRESS →
      l.finish = Wait.blocked ∧
      (l.cancel c).1.status_ = CANCELLED ∧
      (l.cancel c).2 =
        if l.callback_ then [Effect.callback (.left ⟨c.Aborted, c.ABORTED⟩)] else []) := by
  refine ⟨?_, ?_, ?_⟩
  · by_cases hs : l.status_ = IN_PROGRESS
    · cases hc : l.callback_ <;> simp [cancel, hs, hc]
    · simp [cancel, hs]
  · intro e
    simp [done]
  · intro hs
    simp [cancel, finish, hs]

/-- Instance of C23: a fresh `Listener` with a callback is cancelled. -/
theorem cancel_never_notifies_witness :
    (new sdkConsts true : Listener Int).status_ = IN_PROGRESS ∧
      ((new sdkConsts true : Listener Int).cancel sdkConsts).2 =
        [Effect.callback (.left ⟨600, "Aborted"⟩)] :=
  ⟨rfl, ((cancel_never_notifies sdkConsts (new sdkConsts true : Listener Int)).2.2 rfl).2.2⟩

/-- One call invokes the user callback only if it is still set, and then
clears it. -/
theorem step_callback_budget (c : Consts) (l : Listener T) (op : Op T) :
    callbackCount (l.step c op).2 + (if (l.step c op).1.callback_ then 1 else 0) ≤
      (if l.callback_ then 1 else 0) := by
  cases op with
  | cancel =>
    by_cases hs : l.status_ = IN_PROGRESS
    · cases hc : l.callback_ <;>
        simp [step, cancel, hs, hc, callbackCount, Effect.isCallback]
    · simp [step, cancel, hs, callbackCount]
  | done e =>
    cases hc : l.callback_ <;> simp [step, done, hc, callbackCount, Effect.isCallback]
  | pause =>
    by_cases hs : l.status_ = CANCELLED <;> simp [step, pause, hs, callbackCount]
  | resume =>
    by_cases hs : l.status_ = PAUSED <;> simp [step, resume, hs, callbackCount]
  | receivedData data length =>
    cases hd : l.download_callback_ <;>
      simp [step, receivedData, hd, callbackCount, Effect.isCallback]

/-- The same for a sequence of calls. -/
theorem run_callback_budget (c : Consts) (ops : List (Op T)) :
    ∀ l : Listener T,
      callbackCount (run c l ops).2 + (if (run c l ops).1.callback_ then 1 else 0) ≤
        (if l.callback_ then 1 else 0) := by
  induction ops with
  | nil => intro l; simp [run, callbackCount]
  | cons op ops ih =>
    intro l
    have h1 := step_callback_budget c l op
    have h2 := ih (l.step c op).1
    have hsplit : callbackCount (run c l (op :: ops)).2 =
        callbackCount (l.step c op).2 + callbackCount (run c (l.step c op).1 ops).2 := by
      simp [run, callbackCount, List.filter_append]
    have hst : (run c l (op :: ops)).1 = (run c (l.step c op).1 ops).1 := rfl
    rw [hsplit, hst]
    omega

/-- C26. Through every sequence of `cancel()`, `done()`, `pause()`, `resume()`
and `receivedData()` calls the user callback is invoked at most once, also over
a whole life ending with the destructor; once a `done()` or an effective
`cancel()` has taken the callback out, no later call invokes it. -/
theorem callback_at_most_once (c : Consts) (l : Listener T) (ops : List (Op T)) :
    callbackCount (run c l ops).2 ≤ 1 ∧
    (∀ cb, callbackCount (lifetime c cb ops : Listener T × List (Effect T)).2 ≤ 1) ∧
    (∀ e, callbackCount (run c (l.done e).1 ops).2 = 0) ∧
    (l.status_ = IN_PROGRESS → callbackCount (run c (l.cancel c).1 ops).2 = 0) ∧
    (l.callback_ = false → callbackCount (run c l ops).2 = 0) := by
  have key : ∀ (m : Listener T) (os : List (Op T)),
      callbackCount (run c m os).2 ≤ (if m.callback_ then 1 else 0) := by
    intro m os
    have := run_callback_budget c os m
    omega
  refine ⟨?_, ?_, ?_, ?_, ?_⟩
  · have := key l ops
    split at this <;> omega
  · intro cb
    have := key (new c cb) (ops ++ [Op.cancel])
    simp only [lifetime]
    split at this <;> omega
  · intro e
    have := key (l.done e).1 ops
    simpa [done] using this
  · intro hs
    have := key (l.cancel c).1 ops
    simpa [cancel, hs] using this
  · intro hc
    have := key l ops
    simpa [hc] using this

/-- Instance of C26: a `Listener` is paused, resumed, completed, cancelled and
completed once more. -/
theorem callback_at_most_once_witness :
    callbackCount (run sdkConsts (new sdkConsts true : Listener Int)
      [Op.pause, Op.resume, Op.done (.right 0), Op.cancel, Op.done (.right 1)]).2 ≤ 1 :=
  (callback_at_most_once sdkConsts (new sdkConsts true : Listener Int)
    [Op.pause, Op.resume, Op.done (.right 0), Op.cancel, Op.done (.right 1)]).1

/-- C27. Evaluation of the sources on `done(e)` followed by `pause()`: `pause()`
only spares the status `CANCELLED`, so it replaces `SUCCESS` by `PAUSED`, and
`result()` then returns the stored error instead of `e`; after a `resume()` the
status is `IN_PROGRESS` and `result()` blocks. -/
theorem pause_after_done_leaves_success (l : Listener T) (e : EitherError T) :
    (l.done e).1.status_ = SUCCESS ∧
    (l.done e).1.result = Wait.returned (some e) ∧
    ((l.done e).1.pause).status_ = PAUSED ∧
    ((l.done e).1.pause).result = Wait.returned (some (.left l.error_)) ∧
    (((l.done e).1.pause).resume).status_ = IN_PROGRESS ∧
    (((l.done e).1.pause).resume).result = Wait.blocked := by
  simp [done, pause, resume, result, finish, SUCCESS, PAUSED, CANCELLED, IN_PROGRESS]

end Listener

/-! ## Properties of `error_description` -/

/-- The function `error_description` is the switch over the table for a
non-positive code. -/
theorem error_description_eq_switch (c : Consts) (e : Int) :
    error_description c e =
      if e ≤ 0 then switchText e (errorTable c) else "HTTP Error" := by
  rfl

/-- A switch whose texts are all non-empty returns a non-empty text. -/
theorem switchText_ne_empty (e : Int) (t : List (Int × String))
    (h : ∀ x ∈ t, x.2 ≠ "") : switchText e t ≠ "" := by
  induction t with
  | nil => simp [switchText]
  | cons x t ih =>
    obtain ⟨k, v⟩ := x
    simp only [switchText]
    split_ifs
    · exact h (k, v) (List.mem_cons_self _ _)
    · exact ih (fun y hy => h y (List.mem_cons_of_mem _ hy))

/-- A code that is none of the labels gets the default text. -/
theorem switchText_default (e : Int) (t : List (Int × String))
    (h : e ∉ t.map Prod.fst) : switchText e t = "Unknown error" := by
  induction t with
  | nil => rfl
  | cons x t ih =>
    obtain ⟨k, v⟩ := x
    simp only [List.map_cons, List.mem_cons, not_or] at h
    simp only [switchText, if_neg h.1]
    exact ih h.2

/-- With distinct labels, each label gets its own text. -/
theorem switchText_of_mem (t : List (Int × String)) (h : (t.map Prod.fst).Nodup)
    (k : Int) (v : String) (hkv : (k, v) ∈ t) : switchText k t = v := by
  induction t with
  | nil => simp at hkv
  | cons x t ih =>
    obtain ⟨k1, v1⟩ := x
    simp only [List.map_cons, List.nodup_cons] at h
    rcases List.mem_cons.mp hkv with heq | hmem
    · have hk : k = k1 := (Prod.mk.inj heq).1
      have hv : v = v1 := (Prod.mk.inj heq).2
      simp [switchText, hk, hv]
    · have hne : k ≠ k1 := by
        intro hk
        apply h.1
        rw [← hk]
        exact List.mem_map.mpr ⟨(k, v), hmem, rfl⟩
      simp only [switchText, if_neg hne]
      exact ih h.2 hmem

/-- C25. The function `error_description` returns a non-empty text for every
code; every positive code gives `"HTTP Error"`; and when the SDK codes of the
switch are pairwise distinct (as the case labels of a switch are) and not
positive, `API_OK` gives `"No error"`, each code of the switch gives its own
text, and every other non-positive code gives `"Unknown error"`. -/
theorem error_description_total (c : Consts)
    (hdistinct : ((errorTable c).map Prod.fst).Nodup)
    (hnonpos : ∀ k ∈ (errorTable c).map Prod.fst, k ≤ 0) :
    (∀ e, error_description c e ≠ "") ∧
    (∀ e, 0 < e → error_description c e = "HTTP Error") ∧
    error_description c c.API_OK = "No error" ∧
    (∀ k v, (k, v) ∈ errorTable c → error_description c k = v) ∧
    error_description c c.API_ENOENT = "Not found" ∧
    error_description c c.API_EACCESS = "Access denied" ∧
    error_description c c.API_EGOINGOVERQUOTA = "Not enough quota" ∧
    (∀ e, e ≤ 0 → e ∉ (errorTable c).map Prod.fst →
      error_description c e = "Unknown error") := by
  have hmem : ∀ k v, (k, v) ∈ errorTable c → error_description c k = v := by
    intro k v hkv
    have hk : k ≤ 0 := hnonpos k (List.mem_map.mpr ⟨(k, v), hkv, rfl⟩)
    rw [error_description_eq_switch, if_pos hk]
    exact switchText_of_mem _ hdistinct k v hkv
  refine ⟨?_, ?_, ?_, hmem, ?_, ?_, ?_, ?_⟩
  · intro e
    rw [error_description_eq_switch]
    split_ifs
    · apply switchText_ne_empty
      intro x hx
      simp only [errorTable, List.mem_cons, List.mem_singleton, List.not_mem_nil,
        or_false] at hx
      rcases hx with h | h | h | h | h | h | h | h | h | h | h | h | h | h | h | h | h | h |
        h | h | h | h | h | h | h <;> rw [h] <;> simp
    · decide
  · intro e he
    rw [error_description_eq_switch, if_neg (by omega)]
  · exact hmem _ _ (by simp [errorTable])
  · exact hmem _ _ (by simp [errorTable])
  · exact hmem _ _ (by simp [errorTable])
  · exact hmem _ _ (by simp [errorTable])
  · intro e he hnot
    rw [error_description_eq_switch, if_pos he]
    exact switchText_default e _ hnot

/-- Instance of C25: the numbering of the SDK. -/
theorem error_description_total_witness :
    ((errorTable sdkConsts).map Prod.fst).Nodup ∧
      error_description sdkConsts (-9) = "Not found" ∧
      error_description sdkConsts (-100) = "Unknown error" :=
  ⟨by decide,
    (error_description_total sdkConsts (by decide) (by decide)).2.2.2.2.1,
    (error_description_total sdkConsts (by decide) (by decide)).2.2.2.2.2.2.2 (-100)
      (by decide) (by decide)⟩

/-! ## Further properties of `App::pread_data` -/

namespace App

/-- The branch of `pread_data` taken by a chunk for an in-progress request that
does not bring `received_bytes_` to `total_bytes_`. -/
theorem pread_data_of_continue (c : Consts) (app : App Int) (data : List Nat)
    (length : Int) (d : Nat) (ty : Type_) (a : Nat)
    (hreg : find app.callback_ (toInt32 d) = some (ty, a))
    (hprog : (app.heap a).status_ = Listener.IN_PROGRESS)
    (hne : addUInt64 (app.heap a).received_bytes_ length ≠ (app.heap a).total_bytes_) :
    pread_data c app data length d =
      ({ app with
         heap := Function.update app.heap a
           { app.heap a with received_bytes_ := addUInt64 (app.heap a).received_bytes_ length } },
       (Listener.receivedData
           { app.heap a with received_bytes_ := addUInt64 (app.heap a).received_bytes_ length }
           data (toUInt32 length)).2,
       true) := by
  simp [pread_data, hreg, hne, Listener.receivedData, hprog]

/-- The calls into the download callback are not invocations of the user
callback. -/
theorem receivedData_callbackCount (l : Listener Int) (data : List Nat) (length : Nat) :
    callbackCount (l.receivedData data length).2 = 0 := by
  cases hd : l.download_callback_ <;>
    simp [Listener.receivedData, hd, callbackCount, Effect.isCallback]

/-- While the running count never equals `total_bytes_`, a sequence of chunks
leaves the request registered and in progress. -/
theorem pread_data_all_of_continue (c : Consts) (d : Nat) (ty : Type_) (a : Nat)
    (chunks : List (List Nat × Int)) :
    ∀ app : App Int, find app.callback_ (toInt32 d) = some (ty, a) →
      (app.heap a).status_ = Listener.IN_PROGRESS →
      (app.heap a).total_bytes_ ∉ runningCounts (app.heap a).received_bytes_ chunks →
      find (pread_data_all c d app chunks).1.callback_ (toInt32 d) = some (ty, a) ∧
      ((pread_data_all c d app chunks).1.heap a).status_ = Listener.IN_PROGRESS ∧
      ((pread_data_all c d app chunks).1.heap a).callback_ = (app.heap a).callback_ ∧
      callbackCount (pread_data_all c d app chunks).2 = 0 := by
  induction chunks with
  | nil =>
    intro app hreg hprog _
    exact ⟨hreg, hprog, rfl, rfl⟩
  | cons ch chunks ih =>
    intro app hreg hprog hnot
    simp only [runningCounts, List.mem_cons, not_or] at hnot
    have hne : addUInt64 (app.heap a).received_bytes_ ch.2 ≠ (app.heap a).total_bytes_ :=
      fun h => hnot.1 h.symm
    have hp := pread_data_of_continue c app ch.1 ch.2 d ty a hreg hprog hne
    have h := ih (pread_data c app ch.1 ch.2 d).1
      (by rw [hp]; exact hreg)
      (by rw [hp]; simpa using hprog)
      (by rw [hp]; simpa using hnot.2)
    simp only [pread_data_all]
    refine ⟨h.1, h.2.1, ?_, ?_⟩
    · rw [h.2.2.1, hp]
      simp
    · have hc : callbackCount (pread_data c app ch.1 ch.2 d).2.1 = 0 := by
        rw [hp]
        exact receivedData_callbackCount _ _ _
      have hsplit : ∀ xs ys : List (Effect Int),
          callbackCount (xs ++ ys) = callbackCount xs + callbackCount ys := by
        intro xs ys
        simp [callbackCount, List.filter_append]
      rw [hsplit, hc, h.2.2.2]

/-- C28. For a registered in-progress download, `pread_data` completes the
`Listener` with `Ok(API_OK)` and unregisters the tag when, after adding the
chunk length, `received_bytes_` equals `total_bytes_`, and otherwise leaves it
in progress and registered and returns true; through a sequence of chunks whose
running count never equals `total_bytes_` the `Listener` is never completed;
and for an unregistered tag `pread_data` returns false and changes nothing. -/
theorem pread_data_completes_exactly_at_total (c : Consts) (app : App Int) (data : List Nat)
    (length : Int) (d : Nat) (ty : Type_) (a : Nat)
    (hreg : find app.callback_ (toInt32 d) = some (ty, a))
    (hprog : (app.heap a).status_ = Listener.IN_PROGRESS) :
    (addUInt64 (app.heap a).received_bytes_ length = (app.heap a).total_bytes_ →
      ((pread_data c app data length d).1.heap a).result =
        Wait.returned (some (.right c.API_OK)) ∧
      find (pread_data c app data length d).1.callback_ (toInt32 d) = none) ∧
    (addUInt64 (app.heap a).received_bytes_ length ≠ (app.heap a).total_bytes_ →
      ((pread_data c app data length d).1.heap a).status_ = Listener.IN_PROGRESS ∧
      ((pread_data c app data length d).1.heap a).result = Wait.blocked ∧
      find (pread_data c app data length d).1.callback_ (toInt32 d) = some (ty, a) ∧
      callbackCount (pread_data c app data length d).2.1 = 0 ∧
      (pread_data c app data length d).2.2 = true) ∧
    (∀ chunks : List (List Nat × Int),
      (app.heap a).total_bytes_ ∉ runningCounts (app.heap a).received_bytes_ chunks →
      ((pread_data_all c d app chunks).1.heap a).status_ = Listener.IN_PROGRESS ∧
      find (pread_data_all c d app chunks).1.callback_ (toInt32 d) = some (ty, a) ∧
      callbackCount (pread_data_all c d app chunks).2 = 0) ∧
    (∀ (app2 : App Int) (d2 : Nat), find app2.callback_ (toInt32 d2) = none →
      pread_data c app2 data length d2 = (app2, [], false)) := by
  refine ⟨?_, ?_, ?_, ?_⟩
  · intro hall
    rw [pread_data_of_complete c app data length d ty a hreg hall]
    refine ⟨?_, find_erase_self _ _⟩
    simp [Listener.done, Listener.result, Listener.finish, Listener.SUCCESS,
      Listener.IN_PROGRESS]
  · intro hne
    rw [pread_data_of_continue c app data length d ty a hreg hprog hne]
    refine ⟨by simpa using hprog, ?_, hreg, receivedData_callbackCount _ _ _, rfl⟩
    simp [Listener.result, Listener.finish, hprog]
  · intro chunks hnot
    have h := pread_data_all_of_continue c d ty a chunks app hreg hprog hnot
    exact ⟨h.2.1, h.1, h.2.2.2⟩
  · intro app2 d2 h
    exact pread_data_unregistered c app2 data length d2 h

/-- Instance of C28: the download of 10 bytes registered under tag 1 receives
chunks of 4, 4 and 4 bytes; the count goes 4, 8, 12 and never equals 10. -/
theorem pread_data_completes_exactly_at_total_witness :
    find (downloadApp sdkConsts 1 10).callback_ (toInt32 1) = some (Type_.READ, 0) ∧
      ((downloadApp sdkConsts 1 10).heap 0).status_ = Listener.IN_PROGRESS ∧
      runningCounts 0 [([1, 2, 3, 4], 4), ([5, 6, 7, 8], 4), ([9, 10, 11, 12], 4)] =
        [4, 8, 12] ∧
      ((pread_data_all sdkConsts 1 (downloadApp sdkConsts 1 10)
        [([1, 2, 3, 4], 4), ([5, 6, 7, 8], 4), ([9, 10, 11, 12], 4)]).1.heap 0).status_ =
        Listener.IN_PROGRESS :=
  ⟨by decide, rfl, by decide,
    ((pread_data_completes_exactly_at_total sdkConsts (downloadApp sdkConsts 1 10) [] 0 1
      Type_.READ 0 (by decide) rfl).2.2.1
      [([1, 2, 3, 4], 4), ([5, 6, 7, 8], 4), ([9, 10, 11, 12], 4)] (by decide)).1⟩

end App

/-! ## Authorization of the provider -/

namespace MegaNz

/-- C29. `ensureAuthorized` hands the request to the body of the operation when
`authorized_` is true or the reauthorization reported success; when the
reauthorization reports an error the request is completed with that error,
whatever the body is. In the flow of `authorizeAsync`, `authorized_` becomes
true only where a login (the first one, or the one retried with the
authorization code) and then `fetchnodes` completed without error, and the flow
then reports success; conversely a flow that reports success has set
`authorized_`. -/
theorem body_runs_only_when_authorized {R : Type} (env : Env) :
    (∀ (reauth : EitherError Unit) (body : Option (Step R)),
      ensureAuthorized true reauth body = body) ∧
    (∀ (u : Unit) (body : Option (Step R)), ensureAuthorized false (.right u) body = body) ∧
    (∀ (err : Error) (body : Option (Step R)),
      ensureAuthorized false (.left err) body = some (.done (.left err))) ∧
    (∀ tok replies, (authorizeAsync env false tok replies).authorized_ = true →
      (authorizeAsync env false tok replies).complete = .right () ∧
      replies.fetch = .right 0 ∧
      ((login env tok replies.login1).complete = .right () ∨
        ∃ code, replies.consent = Status.WaitForAuthorizationCode ∧
          replies.code = .right code ∧
          (login env (authorizationCodeToToken env code) replies.login2).complete =
            .right ())) ∧
    (∀ tok replies, (authorizeAsync env false tok replies).complete = .right () →
      (authorizeAsync env false tok replies).authorized_ = true) := by
  refine ⟨?_, ?_, ?_, ?_, ?_⟩
  · intro reauth body
    simp [ensureAuthorized]
  · intro u body
    simp [ensureAuthorized]
  · intro err body
    simp [ensureAuthorized]
  · intro tok replies h
    rcases h1 : (login env tok replies.login1).complete with e1 | u1
    · by_cases hc : replies.consent = Status.WaitForAuthorizationCode
      · rcases hcode : replies.code with ec | code
        · simp [authorizeAsync, h1, hc, hcode] at h
        · rcases h2 : (login env (authorizationCodeToToken env code) replies.login2).complete
            with e2 | u2
          · simp [authorizeAsync, h1, hc, hcode, h2] at h
          · rcases hf : replies.fetch with ef | v
            · simp [authorizeAsync, h1, hc, hcode, h2, fetch, hf] at h
            · by_cases hv : v = 0
              · refine ⟨?_, by rw [hv], Or.inr ⟨code, hc, rfl, h2⟩⟩
                simp [authorizeAsync, h1, hc, hcode, h2, fetch, hf, hv]
              · simp [authorizeAsync, h1, hc, hcode, h2, fetch, hf, hv] at h
      · simp [authorizeAsync, h1, hc] at h
    · rcases hf : replies.fetch with ef | v
      · simp [authorizeAsync, h1, fetch, hf] at h
      · by_cases hv : v = 0
        · refine ⟨?_, by rw [hv], Or.inl rfl⟩
          simp [authorizeAsync, h1, fetch, hf, hv]
        · simp [authorizeAsync, h1, fetch, hf, hv] at h
  · intro tok replies h
    rcases h1 : (login env tok replies.login1).complete with e1 | u1
    · by_cases hc : replies.consent = Status.WaitForAuthorizationCode
      · rcases hcode : replies.code with ec | code
        · simp [authorizeAsync, h1, hc, hcode] at h
        · rcases h2 : (login env (authorizationCodeToToken env code) replies.login2).complete
            with e2 | u2
          · simp [authorizeAsync, h1, hc, hcode, h2] at h
          · rcases hf : replies.fetch with ef | v
            · simp [authorizeAsync, h1, hc, hcode, h2, fetch, hf] at h
            · by_cases hv : v = 0
              · simp [authorizeAsync, h1, hc, hcode, h2, fetch, hf, hv]
              · simp [authorizeAsync, h1, hc, hcode, h2, fetch, hf, hv] at h
      · simp [authorizeAsync, h1, hc] at h
    · rcases hf : replies.fetch with ef | v
      · simp [authorizeAsync, h1, fetch, hf] at h
      · by_cases hv : v = 0
        · simp [authorizeAsync, h1, fetch, hf, hv]
        · simp [authorizeAsync, h1, fetch, hf, hv] at h

/-- Instance of C29: the session login succeeds but `fetchnodes` fails with
`API_EINTERNAL`: the flow reports the error and `authorized_` stays false, so an
operation started next completes with that error without running its body. -/
theorem body_runs_only_when_authorized_witness :
    (authorizeAsync sdkEnv false ⟨"session", "credentials"⟩
      ⟨⟨.right 0, .right 0, ""⟩, Status.None, .right "", ⟨.right 0, .right 0, ""⟩,
        .left ⟨-1, "Internal error"⟩⟩).authorized_ = false ∧
    getItemDataAsync sdkEnv sampleClient false (.left ⟨-1, "Internal error"⟩) "7" =
      some (.done (.left ⟨-1, "Internal error"⟩)) :=
  ⟨by decide,
    (body_runs_only_when_authorized sdkEnv).2.2.1 ⟨-1, "Internal error"⟩ _⟩

end MegaNz

/-! ## Further properties of `CloudHttp::doio` -/

namespace CloudHttp

/-- When none of the entries `pre` makes `std::stol` throw, the second loop of
`doio` on `pre ++ rest` goes on with `rest` from some intermediate state, in
which the requests without an entry in `pre` are as before. -/
theorem doioCompletions_reach (env : Env) (rest : List (Option Nat × EitherError Response))
    (pre : List (Option Nat × EitherError Response)) :
    ∀ (s : CloudHttp) (result : Bool),
      (∀ h1 d v, (some h1, EitherError.right d) ∈ pre → env.isSuccess d.http_code_ = true →
        d.headers_.lookup "content-length" = some v → env.stol v ≠ none) →
      ∃ s1 result1,
        (doioCompletions env s result (pre ++ rest)).1 = (doioCompletions env s1 result1 rest).1 ∧
        (doioCompletions env s result (pre ++ rest)).2.2 =
          (doioCompletions env s1 result1 rest).2.2 ∧
        (∀ h, (∀ x ∈ pre, x.1 ≠ some h) → s1.reqs h = s.reqs h) := by
  induction pre with
  | nil =>
    intro s result _
    exact ⟨s, result, rfl, rfl, fun _ _ => rfl⟩
  | cons x pre ih =>
    intro s result hpre
    have hpre1 : ∀ h1 d v, (some h1, EitherError.right d) ∈ pre →
        env.isSuccess d.http_code_ = true →
        d.headers_.lookup "content-length" = some v → env.stol v ≠ none :=
      fun h1 d v hm => hpre h1 d v (List.mem_cons_of_mem _ hm)
    obtain ⟨o, e⟩ := x
    cases o with
    | none =>
      obtain ⟨s1, r1, e1, e2, e3⟩ := ih s result hpre1
      refine ⟨s1, r1, ?_, ?_, ?_⟩
      · simpa only [List.cons_append, doioCompletions] using e1
      · simpa only [List.cons_append, doioCompletions] using e2
      · intro h hh
        exact e3 h (fun y hy => hh y (List.mem_cons_of_mem _ hy))
    | some h0 =>
      have hupd : ∀ (h : Nat) (r : HttpReq), (∀ y ∈ (some h0, e) :: pre, y.1 ≠ some h) →
          Function.update s.reqs h0 r h = s.reqs h := by
        intro h r hh
        have hne : h ≠ h0 := by
          intro heq
          exact hh (some h0, e) (List.mem_cons_self _ _) (by rw [heq])
        simp [Function.update, hne]
      cases e with
      | left err =>
        obtain ⟨s1, r1, e1, e2, e3⟩ := ih
          { s with
            reqs := Function.update s.reqs h0
              { s.reqs h0 with
                httpio := false
                httpiohandle := none
                httpstatus := err.code
                status := reqstatus_t.REQ_FAILURE } } true hpre1
        refine ⟨s1, r1, ?_, ?_, ?_⟩
        · simpa only [List.cons_append, doioCompletions] using e1
        · simpa only [List.cons_append, doioCompletions] using e2
        · intro h hh
          rw [e3 h (fun y hy => hh y (List.mem_cons_of_mem _ hy))]
          exact hupd h _ hh
      | right d =>
        cases hs : env.isSuccess d.http_code_ <;>
          cases hl : d.headers_.lookup "content-length"
        · obtain ⟨s1, r1, e1, e2, e3⟩ := ih
            { s with
              reqs := Function.update s.reqs h0
                { ({ s.reqs h0 with
                      httpio := false, httpiohandle := none, httpstatus := d.http_code_ } :
                    HttpReq) with
                  status := reqstatus_t.REQ_FAILURE } } true hpre1
          refine ⟨s1, r1, ?_, ?_, ?_⟩
          · simpa only [List.cons_append, doioCompletions, hs, hl] using e1
          · simpa only [List.cons_append, doioCompletions, hs, hl] using e2
          · intro h hh
            rw [e3 h (fun y hy => hh y (List.mem_cons_of_mem _ hy))]
            exact hupd h _ hh
        · obtain ⟨s1, r1, e1, e2, e3⟩ := ih
            { s with
              reqs := Function.update s.reqs h0
                { ({ s.reqs h0 with
                      httpio := false, httpiohandle := none, httpstatus := d.http_code_ } :
                    HttpReq) with
                  status := reqstatus_t.REQ_FAILURE } } true hpre1
          refine ⟨s1, r1, ?_, ?_, ?_⟩
          · simpa only [List.cons_append, doioCompletions, hs, hl] using e1
          · simpa only [List.cons_append, doioCompletions, hs, hl] using e2
          · intro h hh
            rw [e3 h (fun y hy => hh y (List.mem_cons_of_mem _ hy))]
            exact hupd h _ hh
        · obtain ⟨s1, r1, e1, e2, e3⟩ := ih
            { s with
              reqs := Function.update s.reqs h0
                { ({ s.reqs h0 with
                      httpio := false, httpiohandle := none, httpstatus := d.http_code_ } :
                    HttpReq) with
                  status := reqstatus_t.REQ_FAILURE } } true hpre1
          refine ⟨s1, r1, ?_, ?_, ?_⟩
          · simpa only [List.cons_append, doioCompletions, hs, hl] using e1
          · simpa only [List.cons_append, doioCompletions, hs, hl] using e2
          · intro h hh
            rw [e3 h (fun y hy => hh y (List.mem_cons_of_mem _ hy))]
            exact hupd h _ hh
        · rename_i v
          cases hst : env.stol v with
          | none => exact absurd hst (hpre h0 d v (List.mem_cons_self _ _) hs hl)
          | some n =>
            obtain ⟨s1, r1, e1, e2, e3⟩ := ih
              { s with
                reqs := Function.update s.reqs h0
                  { ({ s.reqs h0 with
                        httpio := false, httpiohandle := none, httpstatus := d.http_code_ } :
                      HttpReq) with
                    contentlength := n, status := reqstatus_t.REQ_SUCCESS }
                success := true } true hpre1
            refine ⟨s1, r1, ?_, ?_, ?_⟩
            · simpa only [List.cons_append, doioCompletions, hs, hl, hst] using e1
            · simpa only [List.cons_append, doioCompletions, hs, hl, hst] using e2
            · intro h hh
              rw [e3 h (fun y hy => hh y (List.mem_cons_of_mem _ hy))]
              exact hupd h _ hh

/-- The completion of `h` at the head of the entries, with no later entry for
`h`: what the second loop of `doio` leaves in the object `h`, also when
`std::stol` throws on its content-length header. -/
theorem doioCompletions_head (env : Env) (s : CloudHttp) (result : Bool) (h : Nat)
    (e : EitherError Response) (post : List (Option Nat × EitherError Response))
    (hpost : ∀ x ∈ post, x.1 ≠ some h) :
    (∀ err, e = .left err →
      ((doioCompletions env s result ((some h, e) :: post)).1.reqs h).httpstatus = err.code ∧
      ((doioCompletions env s result ((some h, e) :: post)).1.reqs h).status =
        reqstatus_t.REQ_FAILURE) ∧
    (∀ d, e = .right d →
      ((doioCompletions env s result ((some h, e) :: post)).1.reqs h).httpstatus =
        d.http_code_ ∧
      (∀ v n, env.isSuccess d.http_code_ = true → d.headers_.lookup "content-length" = some v →
        env.stol v = some n →
        ((doioCompletions env s result ((some h, e) :: post)).1.reqs h).status =
          reqstatus_t.REQ_SUCCESS ∧
        ((doioCompletions env s result ((some h, e) :: post)).1.reqs h).contentlength = n) ∧
      (¬ (env.isSuccess d.http_code_ = true ∧
          (d.headers_.lookup "content-length").isSome = true) →
        ((doioCompletions env s result ((some h, e) :: post)).1.reqs h).status =
          reqstatus_t.REQ_FAILURE) ∧
      (∀ v, env.isSuccess d.http_code_ = true → d.headers_.lookup "content-length" = some v →
        env.stol v = none →
        (doioCompletions env s result ((some h, e) :: post)).2.2 = none ∧
        (doioCompletions env s result ((some h, e) :: post)).1.queue_ = post.reverse ∧
        ((doioCompletions env s result ((some h, e) :: post)).1.reqs h).status =
          (s.reqs h).status ∧
        ((doioCompletions env s result ((some h, e) :: post)).1.reqs h).contentlength =
          (s.reqs h).contentlength ∧
        ((doioCompletions env s result ((some h, e) :: post)).1.reqs h).httpiohandle = none)) := by
  have hnot : ∀ e1, (some h, e1) ∉ post := fun e1 hm => hpost _ hm rfl
  cases e with
  | left err =>
    refine ⟨?_, fun d hd => by cases hd⟩
    intro err1 herr
    cases herr
    simp only [doioCompletions]
    rw [(doioCompletions_frame env post _ true).2.2.2.2 h hnot]
    simp
  | right d =>
    refine ⟨(fun err herr => by cases herr), ?_⟩
    intro d1 hd
    cases hd
    cases hs : env.isSuccess d.http_code_ <;>
      cases hl : d.headers_.lookup "content-length"
    · simp only [doioCompletions, hs, hl]
      rw [(doioCompletions_frame env post _ true).2.2.2.2 h hnot]
      simp
    · simp only [doioCompletions, hs, hl]
      rw [(doioCompletions_frame env post _ true).2.2.2.2 h hnot]
      simp
    · simp only [doioCompletions, hs, hl]
      rw [(doioCompletions_frame env post _ true).2.2.2.2 h hnot]
      simp
    · rename_i v
      cases hst : env.stol v
      · simp only [doioCompletions, hs, hl, hst]
        refine ⟨?_, ?_, ?_, ?_⟩
        · simp
        · intro v1 n _ hv1 hn
          cases hv1
          rw [hst] at hn
          cases hn
        · intro hneg
          exact absurd (by simp) hneg
        · intro v1 _ _ _
          simp
      · rename_i n0
        simp only [doioCompletions, hs, hl, hst]
        rw [(doioCompletions_frame env post _ true).2.2.2.2 h hnot]
        refine ⟨?_, ?_, ?_, ?_⟩
        · simp
        · intro v1 n _ hv1 hn
          cases hv1
          rw [hst] at hn
          cases hn
          simp
        · intro hneg
          exact absurd (by simp) hneg
        · intro v1 _ hv1 hn
          cases hv1
          rw [hst] at hn
          cases hn

/-- C24. For a completion of the live request `h` that `doio` processes (the
entries it takes before this one, those enqueued after it, do not make
`std::stol` throw, and no entry enqueued before it is for `h` as well): a
transport error sets `httpstatus` to the code of the error and the status to
`REQ_FAILURE`; an HTTP response sets `httpstatus` to the HTTP code; the status
becomes `REQ_SUCCESS` when the code is a success code, a content-length header
is present and `std::stol` reads it, `contentlength` then being the value read;
it becomes `REQ_FAILURE` when the code is no success code or the header is
absent. Evaluation of the sources on a success code with a content-length header
that `std::stol` does not read: the exception leaves `doio` before any status is
assigned, so the status is neither `REQ_SUCCESS` nor `REQ_FAILURE` but what it
was before the call (with no other completion of `h` in the queue), the handle
of the request is already released, and the entries not taken yet stay in
`queue_`. -/
theorem doio_status_unassigned_on_unreadable_length (env : Env) (s : CloudHttp) (h : Nat)
    (e : EitherError Response) (a b : List (Option Nat × EitherError Response))
    (hq : s.queue_ = a ++ (some h, e) :: b)
    (ha : ∀ x ∈ a, x.1 ≠ some h)
    (hb : ∀ h1 d v, (some h1, EitherError.right d) ∈ b → env.isSuccess d.http_code_ = true →
      d.headers_.lookup "content-length" = some v → env.stol v ≠ none) :
    (∀ err, e = .left err →
      ((s.doio env).1.reqs h).httpstatus = err.code ∧
      ((s.doio env).1.reqs h).status = reqstatus_t.REQ_FAILURE) ∧
    (∀ d, e = .right d →
      ((s.doio env).1.reqs h).httpstatus = d.http_code_ ∧
      (∀ v n, env.isSuccess d.http_code_ = true → d.headers_.lookup "content-length" = some v →
        env.stol v = some n →
        ((s.doio env).1.reqs h).status = reqstatus_t.REQ_SUCCESS ∧
        ((s.doio env).1.reqs h).contentlength = n) ∧
      (¬ (env.isSuccess d.http_code_ = true ∧
          (d.headers_.lookup "content-length").isSome = true) →
        ((s.doio env).1.reqs h).status = reqstatus_t.REQ_FAILURE) ∧
      (∀ v, env.isSuccess d.http_code_ = true → d.headers_.lookup "content-length" = some v →
        env.stol v = none →
        (s.doio env).2.2 = none ∧
        (s.doio env).1.queue_ = a ∧
        ((s.doio env).1.reqs h).httpiohandle = none ∧
        ((∀ x ∈ b, x.1 ≠ some h) →
          ((s.doio env).1.reqs h).status = (s.reqs h).status ∧
          ((s.doio env).1.reqs h).contentlength = (s.reqs h).contentlength))) := by
  have hrev : s.queue_.reverse = b.reverse ++ (some h, e) :: a.reverse := by
    rw [hq]
    simp
  have hdo1 : (s.doio env).1 =
      (doioCompletions env { s with read_update_ := [] } (decide (s.queue_.length > 0))
        s.queue_.reverse).1 := rfl
  have hdo2 : (s.doio env).2.2 =
      (doioCompletions env { s with read_update_ := [] } (decide (s.queue_.length > 0))
        s.queue_.reverse).2.2 := rfl
  have hb1 : ∀ h1 d v, (some h1, EitherError.right d) ∈ b.reverse →
      env.isSuccess d.http_code_ = true →
      d.headers_.lookup "content-length" = some v → env.stol v ≠ none :=
    fun h1 d v hm => hb h1 d v (List.mem_reverse.mp hm)
  obtain ⟨s1, result1, heq1, heq2, hreqs⟩ :=
    doioCompletions_reach env ((some h, e) :: a.reverse) b.reverse
      { s with read_update_ := [] } (decide (s.queue_.length > 0)) hb1
  have hpost : ∀ x ∈ a.reverse, x.1 ≠ some h := fun x hx => ha x (List.mem_reverse.mp hx)
  have hhead := doioCompletions_head env s1 result1 h e a.reverse hpost
  rw [hdo1, hdo2, hrev, heq1, heq2]
  refine ⟨hhead.1, ?_⟩
  intro d hd
  obtain ⟨g1, g2, g3, g4⟩ := hhead.2 d hd
  refine ⟨g1, g2, g3, ?_⟩
  intro v hs hl hst
  obtain ⟨k1, k2, k3, k4, k5⟩ := g4 v hs hl hst
  refine ⟨k1, ?_, k5, ?_⟩
  · rw [k2]
    simp
  · intro hb2
    have hsame : s1.reqs h = s.reqs h :=
      hreqs h (fun x hx => hb2 x (List.mem_reverse.mp hx))
    rw [k3, k4, hsame]
    exact ⟨rfl, rfl⟩

/-- Instance of C24: request 1 is posted and its response arrives with the HTTP
code 200 and the content-length header `abc`, in which `std::stol` finds no
number (read here with `stoull`): `doio` throws and the request stays
`REQ_INFLIGHT`. -/
theorem doio_status_unassigned_on_unreadable_length_witness :
    ((idleHttp.post 1 none 1).1.onSent 1 1
      (.right ⟨200, [("content-length", "abc")]⟩)).1.queue_ =
        [] ++ (some 1, .right ⟨200, [("content-length", "abc")]⟩) :: [] ∧
    (((idleHttp.post 1 none 1).1.onSent 1 1
      (.right ⟨200, [("content-length", "abc")]⟩)).1.doio
        { sdkEnv with stol := fun v => (stoull v).map Int.ofNat }).2.2 = none ∧
    ((((idleHttp.post 1 none 1).1.onSent 1 1
      (.right ⟨200, [("content-length", "abc")]⟩)).1.doio
        { sdkEnv with stol := fun v => (stoull v).map Int.ofNat }).1.reqs 1).status =
      reqstatus_t.REQ_INFLIGHT :=
  ⟨by decide,
    ((((doio_status_unassigned_on_unreadable_length
      { sdkEnv with stol := fun v => (stoull v).map Int.ofNat }
      ((idleHttp.post 1 none 1).1.onSent 1 1 (.right ⟨200, [("content-length", "abc")]⟩)).1
      1 (.right ⟨200, [("content-length", "abc")]⟩) [] [] (by decide)
      (fun x hx => by cases hx) (fun h1 d v hm => by cases hm)).2
      ⟨200, [("content-length", "abc")]⟩ rfl).2.2.2 "abc" (by decide) (by decide)
      (by decide)).1),
    (((((doio_status_unassigned_on_unreadable_length
      { sdkEnv with stol := fun v => (stoull v).map Int.ofNat }
      ((idleHttp.post 1 none 1).1.onSent 1 1 (.right ⟨200, [("content-length", "abc")]⟩)).1
      1 (.right ⟨200, [("content-length", "abc")]⟩) [] [] (by decide)
      (fun x hx => by cases hx) (fun h1 d v hm => by cases hm)).2
      ⟨200, [("content-length", "abc")]⟩ rfl).2.2.2 "abc" (by decide) (by decide)
      (by decide)).2.2.2 (fun x hx => by cases hx)).1).trans (by decide)⟩

end CloudHttp

/-! ## Item ids -/

/-- The decimal digit characters: each is a digit, is neither white space nor a
sign, and has the value it stands for. -/
theorem digitChar_spec (k : Nat) (hk : k < 10) :
    (Nat.digitChar k).isDigit = true ∧ isspace (Nat.digitChar k) = false ∧
      Nat.digitChar k ≠ '-' ∧ Nat.digitChar k ≠ '+' ∧ (Nat.digitChar k).toNat - 48 = k := by
  interval_cases k <;> decide

/-- The decimal digits of `n`, most significant first, followed by `ds`: a
non-empty run of digit characters whose value is `n`. -/
theorem toDigitsCore_spec (fuel : Nat) :
    ∀ n : Nat, n < fuel →
      ∃ L : List Char, (∀ ds, Nat.toDigitsCore 10 fuel n ds = L ++ ds) ∧ L ≠ [] ∧
        (∀ ch ∈ L, ch.isDigit = true ∧ isspace ch = false ∧ ch ≠ '-' ∧ ch ≠ '+') ∧
        L.foldl (fun acc ch => 10 * acc + (ch.toNat - 48)) 0 = n := by
  induction fuel with
  | zero => intro n hn; omega
  | succ fuel ih =>
    intro n hn
    have hd := digitChar_spec (n % 10) (Nat.mod_lt _ (by decide))
    by_cases h0 : n / 10 = 0
    · refine ⟨[Nat.digitChar (n % 10)], ?_, by simp, ?_, ?_⟩
      · intro ds
        simp [Nat.toDigitsCore, h0]
      · intro ch hch
        rw [List.mem_singleton.mp hch]
        exact ⟨hd.1, hd.2.1, hd.2.2.1, hd.2.2.2.1⟩
      · simp only [List.foldl, hd.2.2.2.2]
        omega
    · have hlt : n / 10 < fuel := by omega
      obtain ⟨L, hL, hne, hall, hval⟩ := ih (n / 10) hlt
      refine ⟨L ++ [Nat.digitChar (n % 10)], ?_, by simp, ?_, ?_⟩
      · intro ds
        simp [Nat.toDigitsCore, h0, hL]
      · intro ch hch
        rcases List.mem_append.mp hch with hm | hm
        · exact hall ch hm
        · rw [List.mem_singleton.mp hm]
          exact ⟨hd.1, hd.2.1, hd.2.2.1, hd.2.2.2.1⟩
      · rw [List.foldl_append, hval]
        simp only [List.foldl, hd.2.2.2.2]
        omega

/-- The function `std::stoull` reads back what `std::to_string` writes for a
64-bit value. -/
theorem stoull_to_string (h : Nat) (hh : h < 2 ^ 64) : stoull (to_string h) = some h := by
  obtain ⟨L, hL, hne, hall, hval⟩ := toDigitsCore_spec (h + 1) h (Nat.lt_succ_self h)
  have hlist : (to_string h).toList = L := by
    simp [to_string, Nat.repr, Nat.toDigits, hL, List.asString]
  obtain ⟨ch, t, hct⟩ := List.exists_cons_of_ne_nil hne
  have hch := hall ch (by rw [hct]; exact List.mem_cons_self _ _)
  have hdrop : L.dropWhile isspace = L := by
    rw [hct]
    simp [List.dropWhile, hch.2.1]
  have htake : L.takeWhile Char.isDigit = L := by
    rw [List.takeWhile_eq_self_iff]
    intro x hx
    exact (hall x hx).1
  have hhead : L.head? = some ch := by rw [hct]; rfl
  have hminus : ¬ (L.head? = some '-') := by
    rw [hhead]
    intro hc
    exact hch.2.2.1 (Option.some.inj hc)
  have hplus : ¬ (L.head? = some '+') := by
    rw [hhead]
    intro hc
    exact hch.2.2.2 (Option.some.inj hc)
  unfold stoull
  simp only [hlist, hdrop, hminus, hplus, or_self, if_false, htake, hne, hval, decide_False]
  simp
  omega

namespace MegaNz

/-- C30. Item ids round-trip: for a node handle `h` below `2^64`,
`std::stoull(std::to_string(h))` is `h`; so when the decimal string of `h`
differs from the id of the root directory, `node` parses the id back to `h` and
looks `h` up, and `node(toItem(n)->id())` looks up the handle of `n` itself. -/
theorem item_id_round_trip (env : Env) (client : MegaClient) (h : Nat) (hh : h < 2 ^ 64)
    (hroot : to_string h ≠ env.rootId) :
    stoull (to_string h) = some h ∧
    node env client (to_string h) = some (client.nodebyhandle h) ∧
    (∀ n : NodeInfo, n.nodehandle = h →
      (toItem env n).id = to_string h ∧
      node env client (toItem env n).id = some (client.nodebyhandle n.nodehandle)) := by
  have hs := stoull_to_string h hh
  have hnode : node env client (to_string h) = some (client.nodebyhandle h) := by
    simp [node, hroot, hs]
  refine ⟨hs, hnode, ?_⟩
  intro n hn
  have hid : (toItem env n).id = to_string h := by
    simp [toItem, hn]
  exact ⟨hid, by rw [hid, hn]; exact hnode⟩

/-- Instance of C30: the folder of handle 7 in `sampleClient`. -/
theorem item_id_round_trip_witness :
    to_string 7 ≠ sdkEnv.rootId ∧
      node sdkEnv sampleClient (toItem sdkEnv sampleFolder.toNodeInfo).id =
        some (some sampleFolder) :=
  ⟨by decide,
    ((item_id_round_trip sdkEnv sampleClient 7 (by decide) (by decide)).2.2
      sampleFolder.toNodeInfo rfl).2⟩

end MegaNz

end cloudstorage
